import Mathlib

set_option maxRecDepth 10000
set_option exponentiation.threshold 2000

/- Shallow embedding of the EEE Helper CLI calculator (src/main.c, src/funcs.c).

   C double values are modeled by the type QD: an exact rational number, a
   positive or negative infinity, or a nan, with IEEE-style propagation of the
   special values through arithmetic and comparisons.  Rounding and overflow or
   underflow of finite IEEE operations are not modeled (finite arithmetic is
   exact rational arithmetic), there is a single zero, and the transcendental
   functions exp, log and sqrt on finite arguments are taken as function
   parameters of the formula modules.

   The strict parsers parse_long and parse_double mirror the strtol and strtod
   based validation of funcs.c.  The strtod model covers the decimal grammar
   and the case-insensitive inf, infinity and nan forms; hexadecimal floating
   literals and nan(char-sequence) forms are not modeled, and the ERANGE model
   covers overflow of the target type (underflow of strtod is not modeled).
   The conversion (int)v in read_int and get_choice is modeled as the usual
   two-complement wraparound to 32 bits.

   Each calculation module of funcs.c is embedded as a function from the list
   of remaining input lines to a ModuleOut record (displayed numeric results,
   optional error message, log records, division events, log-function calls)
   together with the unconsumed input lines.  Division events record every
   division whose denominator is derived from user input: safe events for
   calls of safe_divide, raw events for divisions written directly with the
   division operator.  The constant denominator 100 in pct/100 is not
   recorded. -/

-- Arithmetic on ℚ written through mkRat and divInt, so that terms built from
-- these operations reduce inside the kernel (the library operations carry an
-- irreducibility attribute).  They are proved equal to the library operations
-- below and are interchangeable with them in every statement.
def qadd (a b : ℚ) : ℚ := mkRat (a.num * b.den + b.num * a.den) (a.den * b.den)

def qsub (a b : ℚ) : ℚ := qadd a (-b)

def qmul (a b : ℚ) : ℚ := mkRat (a.num * b.num) (a.den * b.den)

def qinv (a : ℚ) : ℚ := Rat.divInt (a.den : ℤ) a.num

def qdiv (a b : ℚ) : ℚ := qmul a (qinv b)

def natQ (n : ℕ) : ℚ := mkRat (Int.ofNat n) 1

inductive QD where
  | fin (q : ℚ)
  | posInf
  | negInf
  | nan
  deriving DecidableEq, Repr

def QD.isFinite : QD → Bool
  | QD.fin _ => true
  | _ => false

def QD.neg : QD → QD
  | QD.fin q => QD.fin (-q)
  | QD.posInf => QD.negInf
  | QD.negInf => QD.posInf
  | QD.nan => QD.nan

def QD.add : QD → QD → QD
  | QD.nan, _ => QD.nan
  | _, QD.nan => QD.nan
  | QD.fin a, QD.fin b => QD.fin (qadd a b)
  | QD.posInf, QD.negInf => QD.nan
  | QD.negInf, QD.posInf => QD.nan
  | QD.posInf, _ => QD.posInf
  | _, QD.posInf => QD.posInf
  | QD.negInf, _ => QD.negInf
  | _, QD.negInf => QD.negInf

def QD.sub (a b : QD) : QD := QD.add a (QD.neg b)

def QD.mulSign (pos : Bool) (b : ℚ) : QD :=
  if 0 < b then (if pos then QD.posInf else QD.negInf)
  else if b < 0 then (if pos then QD.negInf else QD.posInf)
  else QD.nan

def QD.mul : QD → QD → QD
  | QD.nan, _ => QD.nan
  | _, QD.nan => QD.nan
  | QD.fin a, QD.fin b => QD.fin (qmul a b)
  | QD.posInf, QD.fin b => QD.mulSign true b
  | QD.negInf, QD.fin b => QD.mulSign false b
  | QD.fin a, QD.posInf => QD.mulSign true a
  | QD.fin a, QD.negInf => QD.mulSign false a
  | QD.posInf, QD.posInf => QD.posInf
  | QD.posInf, QD.negInf => QD.negInf
  | QD.negInf, QD.posInf => QD.negInf
  | QD.negInf, QD.negInf => QD.posInf

def QD.div : QD → QD → QD
  | QD.nan, _ => QD.nan
  | _, QD.nan => QD.nan
  | QD.fin a, QD.fin b =>
      if b = 0 then
        (if a = 0 then QD.nan else if 0 < a then QD.posInf else QD.negInf)
      else QD.fin (qdiv a b)
  | QD.fin _, QD.posInf => QD.fin 0
  | QD.fin _, QD.negInf => QD.fin 0
  | QD.posInf, QD.fin b => if b < 0 then QD.negInf else QD.posInf
  | QD.negInf, QD.fin b => if b < 0 then QD.posInf else QD.negInf
  | QD.posInf, _ => QD.nan
  | QD.negInf, _ => QD.nan

def qabs (q : ℚ) : ℚ := if q < 0 then -q else q

def QD.abs : QD → QD
  | QD.fin q => QD.fin (qabs q)
  | QD.nan => QD.nan
  | _ => QD.posInf

def QD.lt : QD → QD → Bool
  | QD.nan, _ => false
  | _, QD.nan => false
  | QD.fin a, QD.fin b => decide (a < b)
  | QD.fin _, QD.posInf => true
  | QD.posInf, _ => false
  | QD.negInf, QD.negInf => false
  | QD.negInf, _ => true
  | QD.fin _, QD.negInf => false

def QD.le : QD → QD → Bool
  | QD.nan, _ => false
  | _, QD.nan => false
  | QD.fin a, QD.fin b => decide (a ≤ b)
  | QD.fin _, QD.posInf => true
  | QD.posInf, QD.posInf => true
  | QD.posInf, _ => false
  | QD.negInf, _ => true
  | QD.fin _, QD.negInf => false

def QD.beq : QD → QD → Bool
  | QD.fin a, QD.fin b => decide (a = b)
  | QD.posInf, QD.posInf => true
  | QD.negInf, QD.negInf => true
  | _, _ => false

def QD.expE (expQ : ℚ → ℚ) : QD → QD
  | QD.fin q => QD.fin (expQ q)
  | QD.posInf => QD.posInf
  | QD.negInf => QD.fin 0
  | QD.nan => QD.nan

def QD.logE (logQ : ℚ → ℚ) : QD → QD
  | QD.fin q => if 0 < q then QD.fin (logQ q) else if q = 0 then QD.negInf else QD.nan
  | QD.posInf => QD.posInf
  | QD.negInf => QD.nan
  | QD.nan => QD.nan

def QD.sqrtE (sqrtQ : ℚ → ℚ) : QD → QD
  | QD.fin q => if 0 ≤ q then QD.fin (sqrtQ q) else QD.nan
  | QD.posInf => QD.posInf
  | QD.negInf => QD.nan
  | QD.nan => QD.nan

-- Characters accepted by isspace in the default locale, used by strtol and
-- strtod to skip leading whitespace.
def isSpaceC (c : Char) : Bool :=
  c = ' ' || c = '\t' || c = '\n' || c = '\x0b' || c = '\x0c' || c = '\r'

-- The trailing whitespace accepted by parse_long and parse_double of funcs.c.
def isSpTab (c : Char) : Bool := c = ' ' || c = '\t'

def wsCount : List Char → Nat
  | [] => 0
  | c :: cs => if isSpaceC c then wsCount cs + 1 else 0

def signLen : List Char → Nat
  | '+' :: _ => 1
  | '-' :: _ => 1
  | _ => 0

def signNeg : List Char → Bool
  | '-' :: _ => true
  | _ => false

def digitsToNat (ds : List Char) : Nat :=
  ds.foldl (fun acc c => acc * 10 + (c.toNat - 48)) 0

-- Model of the strtol scan with base 10: optional whitespace, optional sign,
-- decimal digits.  Returns the exact value and the number of characters
-- consumed, or none when no conversion is performed (end == s in C).
def scan_long (cs : List Char) : Option (ℤ × Nat) :=
  let w := wsCount cs
  let r1 := cs.drop w
  let r2 := r1.drop (signLen r1)
  let ds := r2.takeWhile Char.isDigit
  if ds.length = 0 then none
  else
    let m : ℤ := Int.ofNat (digitsToNat ds)
    some (if signNeg r1 then -m else m, w + signLen r1 + ds.length)

def longMax : ℤ := 2 ^ 63 - 1

def longMin : ℤ := -(2 ^ 63)

-- parse_long of funcs.c (base 10): empty check, strtol scan, ERANGE check
-- against the range of long, then only spaces and tabs may remain.
def parse_long (s : String) : Option ℤ :=
  let cs := s.data
  if cs.length = 0 then none
  else
    match scan_long cs with
    | none => none
    | some (v, k) =>
      if v < longMin ∨ longMax < v then none
      else if ((cs.drop k).dropWhile isSpTab).length = 0 then some v else none

def ciHasPrefix : List Char → List Char → Bool
  | [], _ => true
  | _ :: _, [] => false
  | p :: ps, c :: cs => if c.toLower = p then ciHasPrefix ps cs else false

def infChars : List Char := ['i', 'n', 'f']

def infinityChars : List Char := ['i', 'n', 'f', 'i', 'n', 'i', 't', 'y']

def nanChars : List Char := ['n', 'a', 'n']

def fracPart : List Char → List Char
  | '.' :: r => r.takeWhile Char.isDigit
  | _ => []

def fracLen : List Char → Nat
  | '.' :: r => (r.takeWhile Char.isDigit).length + 1
  | _ => 0

def pow10 (n : Nat) : ℚ := natQ (10 ^ n)

def applyExp (m : ℚ) (eneg : Bool) (e : Nat) : ℚ :=
  if eneg then qdiv m (pow10 e) else qmul m (pow10 e)

-- Exponent tail after the letter e or E: optional sign then digits; when no
-- digit follows, strtod does not consume the exponent at all.
def expTail (r : List Char) : Option (Bool × Nat × Nat) :=
  let sl := signLen r
  let ds := (r.drop sl).takeWhile Char.isDigit
  if ds.length = 0 then none
  else some (signNeg r, digitsToNat ds, 1 + sl + ds.length)

def expPart : List Char → Option (Bool × Nat × Nat)
  | 'e' :: r => expTail r
  | 'E' :: r => expTail r
  | _ => none

-- Model of the strtod scan: optional whitespace, optional sign, then either a
-- case-insensitive infinity, inf or nan form, or a decimal significand with
-- optional fraction and optional exponent.  Returns the exact value and the
-- number of characters consumed.
def scan_double (cs : List Char) : Option (QD × Nat) :=
  let w := wsCount cs
  let r1 := cs.drop w
  let sl := signLen r1
  let neg := signNeg r1
  let r2 := r1.drop sl
  if ciHasPrefix infinityChars r2 then
    some (if neg then QD.negInf else QD.posInf, w + sl + 8)
  else if ciHasPrefix infChars r2 then
    some (if neg then QD.negInf else QD.posInf, w + sl + 3)
  else if ciHasPrefix nanChars r2 then
    some (QD.nan, w + sl + 3)
  else
    let ip := r2.takeWhile Char.isDigit
    let r3 := r2.drop ip.length
    let fp := fracPart r3
    let fl := fracLen r3
    if ip.length = 0 ∧ fp.length = 0 then none
    else
      let mant : ℚ := qadd (natQ (digitsToNat ip)) (qdiv (natQ (digitsToNat fp)) (pow10 fp.length))
      let mag : ℚ × Nat :=
        match expPart (r3.drop fl) with
        | none => (mant, w + sl + ip.length + fl)
        | some (eneg, e, el) => (applyExp mant eneg e, w + sl + ip.length + fl + el)
      some (QD.fin (if neg then -mag.1 else mag.1), mag.2)

-- Largest finite double, as an exact rational.
def maxDouble : ℚ := mkRat (Int.ofNat ((2 ^ 53 - 1) * 2 ^ 971)) 1

def dblOverflow : QD → Bool
  | QD.fin q => decide (maxDouble < qabs q)
  | _ => false

-- parse_double of funcs.c: empty check, strtod scan, ERANGE check against the
-- range of double, then only spaces and tabs may remain.
def parse_double (s : String) : Option QD :=
  let cs := s.data
  if cs.length = 0 then none
  else
    match scan_double cs with
    | none => none
    | some (v, k) =>
      if dblOverflow v then none
      else if ((cs.drop k).dropWhile isSpTab).length = 0 then some v else none

-- Conversion of a long value to int, modeled as 32-bit wraparound.
def toInt32 (v : ℤ) : ℤ := (v + 2 ^ 31) % 2 ^ 32 - 2 ^ 31

-- read_int of funcs.c over a list of remaining input lines.  The first
-- component is the successful value with the unconsumed lines, or none when
-- the input is exhausted; the second component counts the re-prompt messages
-- printed for rejected lines.
def read_int : List String → Option (ℤ × List String) × Nat
  | [] => (none, 0)
  | l :: ls =>
    match parse_long l with
    | some v => (some (toInt32 v, ls), 0)
    | none => ((read_int ls).1, (read_int ls).2 + 1)

-- read_double of funcs.c, same conventions as read_int.
def read_double : List String → Option (QD × List String) × Nat
  | [] => (none, 0)
  | l :: ls =>
    match parse_double l with
    | some v => (some (v, ls), 0)
    | none => ((read_double ls).1, (read_double ls).2 + 1)

def epsDiv : ℚ := mkRat 1 (10 ^ 12)

-- safe_divide of funcs.c: the default quotient 0.0 is stored first; when the
-- magnitude of the denominator is below epsDiv the division is not performed
-- and not-ok is returned, otherwise the quotient is stored and ok returned.
def safe_divide (num den : QD) : Bool × QD :=
  if QD.lt (QD.abs den) (QD.fin epsDiv) then (false, QD.fin 0)
  else (true, QD.div num den)

-- The PI constant of funcs.c, 3.14159265358979323846, as an exact rational.
def piQ : ℚ := mkRat 314159265358979323846 (10 ^ 20)

def intQD (n : ℤ) : QD := QD.fin (mkRat n 1)

-- Error messages printed by the modules of funcs.c.
def msgSumZero : String := "Error: R1 + R2 cannot be zero (or near zero)."

def msgR2Zero : String := "Error: R2 cannot be zero (or near zero)."

def msgVoutZero : String := "Error: Vout cannot be zero (or near zero)."

def msgVinVout : String := "Error: Vin must not equal Vout (denominator near zero)."

def msgInvalidSel : String := "Invalid selection."

def msgCountPos : String := "Count must be positive."

def msgNAtLeast2 : String := "n must be at least 2."

def msgR2NeReq : String := "Error: R2 must not equal Req (denominator near zero)."

def msgR1NeReq : String := "Error: R1 must not equal Req (denominator near zero)."

def msgFL : String := "Error: f>0, L>=0."

def msgF : String := "Error: f>0."

def msgL : String := "Error: L>0."

def msgDen : String := "Error: invalid denominator."

def msgFC : String := "Error: f>0, C>0."

def msgFXC : String := "Error: f>0, X_C>0."

def msgCXC : String := "Error: C>0, X_C>0."

def msgLC : String := "Error: L>0, C>0."

def msgF0C : String := "Error: f0>0, C>0."

def msgF0L : String := "Error: f0>0, L>0."

def msgRC : String := "Error: R>0, C>0."

def msgT : String := "Error: t>=0."

def msgPct : String := "Error: % must be in (0,100)."

def msgR : String := "Error: R>0."

def msgC : String := "Error: C>0."

def msgTau : String := "Error: tau>0."

def msgLnDomain : String := "Error: invalid ln() domain."

def msgDivZero : String := "Error: division by zero."

def msgIZero : String := "Error: I cannot be zero (or near zero)."

def msgVZero : String := "Error: V cannot be zero (or near zero)."

-- Format strings of the log_printf call sites of funcs.c.
def fmtVD1 : String := "Voltage Divider (Vout): Vin=%.6f V, R1=%.6f ohm, R2=%.6f ohm -> Vout=%.6f V"

def fmtVD2 : String := "Voltage Divider (Vin): Vout=%.6f V, R1=%.6f ohm, R2=%.6f ohm -> Vin=%.6f V"

def fmtVD3 : String := "Voltage Divider (R1): Vin=%.6f V, Vout=%.6f V, R2=%.6f ohm -> R1=%.6f ohm"

def fmtVD4 : String := "Voltage Divider (R2): Vin=%.6f V, Vout=%.6f V, R1=%.6f ohm -> R2=%.6f ohm"

def fmtSer1 : String := "Resistors Series: n=%d -> Rt=%.6f ohm"

def fmtSer2 : String := "Resistors Series Missing: n=%d, Rt=%.6f ohm, sum_known=%.6f ohm -> R_missing=%.6f ohm"

def fmtParShort : String := "Resistors Parallel(2): R1=%.6f ohm, R2=%.6f ohm -> Req=0 (short branch)"

def fmtPar1 : String := "Resistors Parallel(2): R1=%.6f ohm, R2=%.6f ohm -> Req=%.6f ohm"

def fmtPar2 : String := "Resistors Parallel(2) solve R1: Req=%.6f ohm, R2=%.6f ohm -> R1=%.6f ohm"

def fmtPar3 : String := "Resistors Parallel(2) solve R2: Req=%.6f ohm, R1=%.6f ohm -> R2=%.6f ohm"

def fmtXL1 : String := "AC Inductive Reactance: f=%.6f Hz, L=%.9f H -> XL=%.6f ohm"

def fmtXL2 : String := "AC Inductive Reactance solve L: XL=%.6f ohm, f=%.6f Hz -> L=%.9f H"

def fmtXL3 : String := "AC Inductive Reactance solve f: XL=%.6f ohm, L=%.9f H -> f=%.6f Hz"

def fmtXC1 : String := "AC Capacitive Reactance: f=%.6f Hz, C=%.9e F -> XC=%.6f ohm"

def fmtXC2 : String := "AC Capacitive Reactance solve C: XC=%.6f ohm, f=%.6f Hz -> C=%.9e F"

def fmtXC3 : String := "AC Capacitive Reactance solve f: XC=%.6f ohm, C=%.9e F -> f=%.6f Hz"

def fmtRz1 : String := "Resonance: L=%.9e H, C=%.9e F -> f0=%.6f Hz"

def fmtRz2 : String := "Resonance solve L: f0=%.6f Hz, C=%.9e F -> L=%.9e H"

def fmtRz3 : String := "Resonance solve C: f0=%.6f Hz, L=%.9e H -> C=%.9e F"

def fmtRC1 : String := "RC Transient: R=%.6f ohm, C=%.9e F, t=%.6f s -> tau=%.6f s, charge=%.2f%%, discharge=%.2f%%"

def fmtRC2 : String := "RC solve t: R=%.6f ohm, C=%.9e F, charge=%.2f%% -> t=%.6f s"

def fmtRC3 : String := "RC from tau,t: tau=%.6f s, t=%.6f s -> charge=%.2f%%, discharge=%.2f%%"

def fmtRC4 : String := "RC solve C: R=%.6f ohm, charge=%.2f%%, t=%.6f s -> C=%.9e F (tau=%.6f s)"

def fmtRC5 : String := "RC solve R: C=%.9e F, charge=%.2f%%, t=%.6f s -> R=%.6f ohm (tau=%.6f s)"

def fmtPw1 : String := "Power: V=%.6f V, I=%.6f A -> P=%.6f W"

def fmtPw2 : String := "Power solve V: P=%.6f W, I=%.6f A -> V=%.6f V"

def fmtPw3 : String := "Power solve I: P=%.6f W, V=%.6f V -> I=%.6f A"

-- Division events: safe events for calls of safe_divide, raw events for
-- divisions written directly with the division operator on user-derived
-- denominators.
inductive DivEvent where
  | safe (num den : QD)
  | raw (num den : QD)
  deriving DecidableEq, Repr

def DivEvent.isSafe : DivEvent → Bool
  | DivEvent.safe _ _ => true
  | DivEvent.raw _ _ => false

structure LogRec where
  fmt : String
  args : List QD
  deriving DecidableEq, Repr

-- Observable outcome of one run of a calculation module: the numeric values
-- printed as results, the error message if one was printed, the log records
-- written, the division events, and the arguments passed to log().
structure ModuleOut where
  displayed : List QD
  errMsg : Option String
  logs : List LogRec
  divs : List DivEvent
  lnArgs : List QD
  deriving DecidableEq, Repr

def silentOut : ModuleOut := ⟨[], none, [], [], []⟩

def errOut (m : String) : ModuleOut := ⟨[], some m, [], [], []⟩

-- Voltage divider, mode 1: Vout = Vin * R2 / (R1 + R2).
def vd1 (Vin R1 R2 : QD) : ModuleOut :=
  let den := QD.add R1 R2
  let r := safe_divide R2 den
  if r.1 then
    let Vout := QD.mul Vin r.2
    ⟨[Vout], none, [⟨fmtVD1, [Vin, R1, R2, Vout]⟩], [DivEvent.safe R2 den], []⟩
  else ⟨[], some msgSumZero, [], [DivEvent.safe R2 den], []⟩

-- Voltage divider, mode 2: Vin = Vout * (R1 + R2) / R2.
def vd2 (Vout R1 R2 : QD) : ModuleOut :=
  let num := QD.add R1 R2
  let r := safe_divide num R2
  if r.1 then
    let VinAns := QD.mul Vout r.2
    ⟨[VinAns], none, [⟨fmtVD2, [Vout, R1, R2, VinAns]⟩], [DivEvent.safe num R2], []⟩
  else ⟨[], some msgR2Zero, [], [DivEvent.safe num R2], []⟩

-- Voltage divider, mode 3: R1 = R2 * (Vin / Vout - 1).
def vd3 (Vin Vout R2 : QD) : ModuleOut :=
  let r := safe_divide Vin Vout
  if r.1 then
    let R1Ans := QD.mul R2 (QD.sub r.2 (QD.fin 1))
    ⟨[R1Ans], none, [⟨fmtVD3, [Vin, Vout, R2, R1Ans]⟩], [DivEvent.safe Vin Vout], []⟩
  else ⟨[], some msgVoutZero, [], [DivEvent.safe Vin Vout], []⟩

-- Voltage divider, mode 4: R2 = R1 * Vout / (Vin - Vout).
def vd4 (Vin Vout R1 : QD) : ModuleOut :=
  let den := QD.sub Vin Vout
  let r := safe_divide Vout den
  if r.1 then
    let R2Ans := QD.mul R1 r.2
    ⟨[R2Ans], none, [⟨fmtVD4, [Vin, Vout, R1, R2Ans]⟩], [DivEvent.safe Vout den], []⟩
  else ⟨[], some msgVinVout, [], [DivEvent.safe Vout den], []⟩

-- Series resistors, total of n values.
def ser1 (n : ℤ) (rs : List QD) : ModuleOut :=
  let sum := rs.foldl QD.add (QD.fin 0)
  ⟨[sum], none, [⟨fmtSer1, [intQD n, sum]⟩], [], []⟩

-- Series resistors, missing value from the target and the other n - 1.
def ser2 (n : ℤ) (Rt : QD) (rs : List QD) : ModuleOut :=
  let sumKnown := rs.foldl QD.add (QD.fin 0)
  let missing := QD.sub Rt sumKnown
  ⟨[missing], none, [⟨fmtSer2, [intQD n, Rt, sumKnown, missing]⟩], [], []⟩

-- Parallel pair, mode 1: Req = R1 * R2 / (R1 + R2), or 0 when a branch is an
-- exact short circuit.
def par2Req (R1 R2 : QD) : ModuleOut :=
  if QD.beq R1 (QD.fin 0) || QD.beq R2 (QD.fin 0) then
    ⟨[QD.fin 0], none, [⟨fmtParShort, [R1, R2]⟩], [], []⟩
  else
    let num := QD.mul R1 R2
    let den := QD.add R1 R2
    let r := safe_divide num den
    if r.1 then ⟨[r.2], none, [⟨fmtPar1, [R1, R2, r.2]⟩], [DivEvent.safe num den], []⟩
    else ⟨[], some msgSumZero, [], [DivEvent.safe num den], []⟩

-- Parallel pair, mode 2: R1 = Req * R2 / (R2 - Req).
def par2SolveR1 (Req R2 : QD) : ModuleOut :=
  let num := QD.mul Req R2
  let den := QD.sub R2 Req
  let r := safe_divide num den
  if r.1 then ⟨[r.2], none, [⟨fmtPar2, [Req, R2, r.2]⟩], [DivEvent.safe num den], []⟩
  else ⟨[], some msgR2NeReq, [], [DivEvent.safe num den], []⟩

-- Parallel pair, mode 3: R2 = Req * R1 / (R1 - Req).
def par2SolveR2 (Req R1 : QD) : ModuleOut :=
  let num := QD.mul Req R1
  let den := QD.sub R1 Req
  let r := safe_divide num den
  if r.1 then ⟨[r.2], none, [⟨fmtPar3, [Req, R1, r.2]⟩], [DivEvent.safe num den], []⟩
  else ⟨[], some msgR1NeReq, [], [DivEvent.safe num den], []⟩

-- Inductive reactance, mode 1: XL = 2 pi f L.
def xl1 (f L : QD) : ModuleOut :=
  if QD.le f (QD.fin 0) || QD.lt L (QD.fin 0) then errOut msgFL
  else
    let XL := QD.mul (QD.mul (QD.mul (QD.fin 2) (QD.fin piQ)) f) L
    ⟨[XL], none, [⟨fmtXL1, [f, L, XL]⟩], [], []⟩

-- Inductive reactance, mode 2: L = XL / (2 pi f).
def xl2 (XL f : QD) : ModuleOut :=
  if QD.le f (QD.fin 0) then errOut msgF
  else
    let den := QD.mul (QD.mul (QD.fin 2) (QD.fin piQ)) f
    let r := safe_divide XL den
    if r.1 then ⟨[r.2], none, [⟨fmtXL2, [XL, f, r.2]⟩], [DivEvent.safe XL den], []⟩
    else ⟨[], some msgDen, [], [DivEvent.safe XL den], []⟩

-- Inductive reactance, mode 3: f = XL / (2 pi L).
def xl3 (XL L : QD) : ModuleOut :=
  if QD.le L (QD.fin 0) then errOut msgL
  else
    let den := QD.mul (QD.mul (QD.fin 2) (QD.fin piQ)) L
    let r := safe_divide XL den
    if r.1 then ⟨[r.2], none, [⟨fmtXL3, [XL, L, r.2]⟩], [DivEvent.safe XL den], []⟩
    else ⟨[], some msgDen, [], [DivEvent.safe XL den], []⟩

-- Capacitive reactance, mode 1: XC = 1 / (2 pi f C).
def xc1 (f C : QD) : ModuleOut :=
  if QD.le f (QD.fin 0) || QD.le C (QD.fin 0) then errOut msgFC
  else
    let den := QD.mul (QD.mul (QD.mul (QD.fin 2) (QD.fin piQ)) f) C
    let r := safe_divide (QD.fin 1) den
    if r.1 then ⟨[r.2], none, [⟨fmtXC1, [f, C, r.2]⟩], [DivEvent.safe (QD.fin 1) den], []⟩
    else ⟨[], some msgDen, [], [DivEvent.safe (QD.fin 1) den], []⟩

-- Capacitive reactance, mode 2: C = 1 / (2 pi f XC).
def xc2 (XC f : QD) : ModuleOut :=
  if QD.le f (QD.fin 0) || QD.le XC (QD.fin 0) then errOut msgFXC
  else
    let den := QD.mul (QD.mul (QD.mul (QD.fin 2) (QD.fin piQ)) f) XC
    let r := safe_divide (QD.fin 1) den
    if r.1 then ⟨[r.2], none, [⟨fmtXC2, [XC, f, r.2]⟩], [DivEvent.safe (QD.fin 1) den], []⟩
    else ⟨[], some msgDen, [], [DivEvent.safe (QD.fin 1) den], []⟩

-- Capacitive reactance, mode 3: f = 1 / (2 pi C XC).
def xc3 (XC C : QD) : ModuleOut :=
  if QD.le C (QD.fin 0) || QD.le XC (QD.fin 0) then errOut msgCXC
  else
    let den := QD.mul (QD.mul (QD.mul (QD.fin 2) (QD.fin piQ)) C) XC
    let r := safe_divide (QD.fin 1) den
    if r.1 then ⟨[r.2], none, [⟨fmtXC3, [XC, C, r.2]⟩], [DivEvent.safe (QD.fin 1) den], []⟩
    else ⟨[], some msgDen, [], [DivEvent.safe (QD.fin 1) den], []⟩

-- Resonance, mode 1: f0 = 1 / (2 pi sqrt (L C)).
def rz1 (sqrtQ : ℚ → ℚ) (L C : QD) : ModuleOut :=
  if QD.le L (QD.fin 0) || QD.le C (QD.fin 0) then errOut msgLC
  else
    let den := QD.mul (QD.mul (QD.fin 2) (QD.fin piQ)) (QD.sqrtE sqrtQ (QD.mul L C))
    let r := safe_divide (QD.fin 1) den
    if r.1 then ⟨[r.2], none, [⟨fmtRz1, [L, C, r.2]⟩], [DivEvent.safe (QD.fin 1) den], []⟩
    else ⟨[], some msgDen, [], [DivEvent.safe (QD.fin 1) den], []⟩

-- Resonance, mode 2: L = 1 / ((2 pi f0)^2 C).
def rz2 (f0 C : QD) : ModuleOut :=
  if QD.le f0 (QD.fin 0) || QD.le C (QD.fin 0) then errOut msgF0C
  else
    let a := QD.mul (QD.mul (QD.fin 2) (QD.fin piQ)) f0
    let den := QD.mul (QD.mul a a) C
    let r := safe_divide (QD.fin 1) den
    if r.1 then ⟨[r.2], none, [⟨fmtRz2, [f0, C, r.2]⟩], [DivEvent.safe (QD.fin 1) den], []⟩
    else ⟨[], some msgDen, [], [DivEvent.safe (QD.fin 1) den], []⟩

-- Resonance, mode 3: C = 1 / ((2 pi f0)^2 L).
def rz3 (f0 L : QD) : ModuleOut :=
  if QD.le f0 (QD.fin 0) || QD.le L (QD.fin 0) then errOut msgF0L
  else
    let a := QD.mul (QD.mul (QD.fin 2) (QD.fin piQ)) f0
    let den := QD.mul (QD.mul a a) L
    let r := safe_divide (QD.fin 1) den
    if r.1 then ⟨[r.2], none, [⟨fmtRz3, [f0, L, r.2]⟩], [DivEvent.safe (QD.fin 1) den], []⟩
    else ⟨[], some msgDen, [], [DivEvent.safe (QD.fin 1) den], []⟩

-- RC transient, mode 1: tau = R C, charge and discharge percentages at t.
def rc1 (expQ : ℚ → ℚ) (R C t : QD) : ModuleOut :=
  if QD.le R (QD.fin 0) || QD.le C (QD.fin 0) then errOut msgRC
  else if QD.lt t (QD.fin 0) then errOut msgT
  else
    let tau := QD.mul R C
    let charge := QD.mul (QD.fin 100) (QD.sub (QD.fin 1) (QD.expE expQ (QD.div (QD.neg t) tau)))
    let discharge := QD.mul (QD.fin 100) (QD.expE expQ (QD.div (QD.neg t) tau))
    ⟨[tau, charge, discharge], none, [⟨fmtRC1, [R, C, t, tau, charge, discharge]⟩],
      [DivEvent.raw (QD.neg t) tau, DivEvent.raw (QD.neg t) tau], []⟩

-- RC transient, mode 2: t = -tau ln (1 - pct / 100).
def rc2 (logQ : ℚ → ℚ) (R C pct : QD) : ModuleOut :=
  if QD.le R (QD.fin 0) || QD.le C (QD.fin 0) then errOut msgRC
  else if QD.le pct (QD.fin 0) || QD.le (QD.fin 100) pct then errOut msgPct
  else
    let tau := QD.mul R C
    let la := QD.sub (QD.fin 1) (QD.div pct (QD.fin 100))
    let tAns := QD.mul (QD.neg tau) (QD.logE logQ la)
    ⟨[tAns], none, [⟨fmtRC2, [R, C, pct, tAns]⟩], [], [la]⟩

-- RC transient, mode 3: charge and discharge percentages from tau and t.
def rc3 (expQ : ℚ → ℚ) (tau t : QD) : ModuleOut :=
  if QD.le tau (QD.fin 0) then errOut msgTau
  else if QD.lt t (QD.fin 0) then errOut msgT
  else
    let charge := QD.mul (QD.fin 100) (QD.sub (QD.fin 1) (QD.expE expQ (QD.div (QD.neg t) tau)))
    let discharge := QD.mul (QD.fin 100) (QD.expE expQ (QD.div (QD.neg t) tau))
    ⟨[charge, discharge], none, [⟨fmtRC3, [tau, t, charge, discharge]⟩],
      [DivEvent.raw (QD.neg t) tau, DivEvent.raw (QD.neg t) tau], []⟩

-- RC transient, mode 4: tau = -t / ln (1 - pct / 100), C = tau / R.
def rc4 (logQ : ℚ → ℚ) (R pct t : QD) : ModuleOut :=
  if QD.le R (QD.fin 0) then errOut msgR
  else if QD.lt t (QD.fin 0) then errOut msgT
  else if QD.le pct (QD.fin 0) || QD.le (QD.fin 100) pct then errOut msgPct
  else
    let la := QD.sub (QD.fin 1) (QD.div pct (QD.fin 100))
    if QD.le la (QD.fin 0) then errOut msgLnDomain
    else
      let lnv := QD.logE logQ la
      let tau := QD.div (QD.neg t) lnv
      let r := safe_divide tau R
      if r.1 then
        ⟨[r.2, tau], none, [⟨fmtRC4, [R, pct, t, r.2, tau]⟩],
          [DivEvent.raw (QD.neg t) lnv, DivEvent.safe tau R], [la]⟩
      else ⟨[], some msgDivZero, [], [DivEvent.raw (QD.neg t) lnv, DivEvent.safe tau R], [la]⟩

-- RC transient, mode 5: tau = -t / ln (1 - pct / 100), R = tau / C.
def rc5 (logQ : ℚ → ℚ) (C pct t : QD) : ModuleOut :=
  if QD.le C (QD.fin 0) then errOut msgC
  else if QD.lt t (QD.fin 0) then errOut msgT
  else if QD.le pct (QD.fin 0) || QD.le (QD.fin 100) pct then errOut msgPct
  else
    let la := QD.sub (QD.fin 1) (QD.div pct (QD.fin 100))
    if QD.le la (QD.fin 0) then errOut msgLnDomain
    else
      let lnv := QD.logE logQ la
      let tau := QD.div (QD.neg t) lnv
      let r := safe_divide tau C
      if r.1 then
        ⟨[r.2, tau], none, [⟨fmtRC5, [C, pct, t, r.2, tau]⟩],
          [DivEvent.raw (QD.neg t) lnv, DivEvent.safe tau C], [la]⟩
      else ⟨[], some msgDivZero, [], [DivEvent.raw (QD.neg t) lnv, DivEvent.safe tau C], [la]⟩

-- Power, mode 1: P = V I.
def pw1 (V I : QD) : ModuleOut :=
  let P := QD.mul V I
  ⟨[P], none, [⟨fmtPw1, [V, I, P]⟩], [], []⟩

-- Power, mode 2: V = P / I.
def pw2 (P I : QD) : ModuleOut :=
  let r := safe_divide P I
  if r.1 then ⟨[r.2], none, [⟨fmtPw2, [P, I, r.2]⟩], [DivEvent.safe P I], []⟩
  else ⟨[], some msgIZero, [], [DivEvent.safe P I], []⟩

-- Power, mode 3: I = P / V.
def pw3 (P V : QD) : ModuleOut :=
  let r := safe_divide P V
  if r.1 then ⟨[r.2], none, [⟨fmtPw3, [P, V, r.2]⟩], [DivEvent.safe P V], []⟩
  else ⟨[], some msgVZero, [], [DivEvent.safe P V], []⟩

-- Sequential reads of two and three doubles through the prompter.
def read2 (ls : List String) : Option (QD × QD × List String) :=
  match (read_double ls).1 with
  | none => none
  | some (a, ls1) =>
    match (read_double ls1).1 with
    | none => none
    | some (b, ls2) => some (a, b, ls2)

def read3 (ls : List String) : Option (QD × QD × QD × List String) :=
  match (read_double ls).1 with
  | none => none
  | some (a, ls1) =>
    match (read_double ls1).1 with
    | none => none
    | some (b, ls2) =>
      match (read_double ls2).1 with
      | none => none
      | some (c, ls3) => some (a, b, c, ls3)

def readNDoubles : Nat → List String → Option (List QD × List String)
  | 0, ls => some ([], ls)
  | n + 1, ls =>
    match (read_double ls).1 with
    | none => none
    | some (v, ls2) =>
      match readNDoubles n ls2 with
      | none => none
      | some (vs, ls3) => some (v :: vs, ls3)

-- menu_item_1 of funcs.c: voltage divider.
def menu_item_1 (lines : List String) : ModuleOut × List String :=
  match (read_int lines).1 with
  | none => (silentOut, [])
  | some (mode, ls0) =>
    if mode = 1 then
      match read3 ls0 with
      | none => (silentOut, [])
      | some (Vin, R1, R2, ls3) => (vd1 Vin R1 R2, ls3)
    else if mode = 2 then
      match read3 ls0 with
      | none => (silentOut, [])
      | some (Vout, R1, R2, ls3) => (vd2 Vout R1 R2, ls3)
    else if mode = 3 then
      match read3 ls0 with
      | none => (silentOut, [])
      | some (Vin, Vout, R2, ls3) => (vd3 Vin Vout R2, ls3)
    else if mode = 4 then
      match read3 ls0 with
      | none => (silentOut, [])
      | some (Vin, Vout, R1, ls3) => (vd4 Vin Vout R1, ls3)
    else (errOut msgInvalidSel, ls0)

-- menu_item_2 of funcs.c: resistor tools.
def menu_item_2 (lines : List String) : ModuleOut × List String :=
  match (read_int lines).1 with
  | none => (silentOut, [])
  | some (group, ls0) =>
    if group = 1 then
      match (read_int ls0).1 with
      | none => (silentOut, [])
      | some (mode, ls1) =>
        if mode = 1 then
          match (read_int ls1).1 with
          | none => (silentOut, [])
          | some (n, ls2) =>
            if n ≤ 0 then (errOut msgCountPos, ls2)
            else
              match readNDoubles n.toNat ls2 with
              | none => (silentOut, [])
              | some (rs, ls3) => (ser1 n rs, ls3)
        else if mode = 2 then
          match (read_int ls1).1 with
          | none => (silentOut, [])
          | some (n, ls2) =>
            if n < 2 then (errOut msgNAtLeast2, ls2)
            else
              match (read_double ls2).1 with
              | none => (silentOut, [])
              | some (Rt, ls3) =>
                match readNDoubles (n.toNat - 1) ls3 with
                | none => (silentOut, [])
                | some (rs, ls4) => (ser2 n Rt rs, ls4)
        else (errOut msgInvalidSel, ls1)
    else if group = 2 then
      match (read_int ls0).1 with
      | none => (silentOut, [])
      | some (mode, ls1) =>
        if mode = 1 then
          match read2 ls1 with
          | none => (silentOut, [])
          | some (R1, R2, ls2) => (par2Req R1 R2, ls2)
        else if mode = 2 then
          match read2 ls1 with
          | none => (silentOut, [])
          | some (Req, R2, ls2) => (par2SolveR1 Req R2, ls2)
        else if mode = 3 then
          match read2 ls1 with
          | none => (silentOut, [])
          | some (Req, R1, ls2) => (par2SolveR2 Req R1, ls2)
        else (errOut msgInvalidSel, ls1)
    else (errOut msgInvalidSel, ls0)

-- menu_item_3 of funcs.c: AC reactance and resonance.
def menu_item_3 (sqrtQ : ℚ → ℚ) (lines : List String) : ModuleOut × List String :=
  match (read_int lines).1 with
  | none => (silentOut, [])
  | some (group, ls0) =>
    if group = 1 then
      match (read_int ls0).1 with
      | none => (silentOut, [])
      | some (mode, ls1) =>
        if mode = 1 then
          match read2 ls1 with
          | none => (silentOut, [])
          | some (f, L, ls2) => (xl1 f L, ls2)
        else if mode = 2 then
          match read2 ls1 with
          | none => (silentOut, [])
          | some (XL, f, ls2) => (xl2 XL f, ls2)
        else if mode = 3 then
          match read2 ls1 with
          | none => (silentOut, [])
          | some (XL, L, ls2) => (xl3 XL L, ls2)
        else (errOut msgInvalidSel, ls1)
    else if group = 2 then
      match (read_int ls0).1 with
      | none => (silentOut, [])
      | some (mode, ls1) =>
        if mode = 1 then
          match read2 ls1 with
          | none => (silentOut, [])
          | some (f, C, ls2) => (xc1 f C, ls2)
        else if mode = 2 then
          match read2 ls1 with
          | none => (silentOut, [])
          | some (XC, f, ls2) => (xc2 XC f, ls2)
        else if mode = 3 then
          match read2 ls1 with
          | none => (silentOut, [])
          | some (XC, C, ls2) => (xc3 XC C, ls2)
        else (errOut msgInvalidSel, ls1)
    else if group = 3 then
      match (read_int ls0).1 with
      | none => (silentOut, [])
      | some (mode, ls1) =>
        if mode = 1 then
          match read2 ls1 with
          | none => (silentOut, [])
          | some (L, C, ls2) => (rz1 sqrtQ L C, ls2)
        else if mode = 2 then
          match read2 ls1 with
          | none => (silentOut, [])
          | some (f0, C, ls2) => (rz2 f0 C, ls2)
        else if mode = 3 then
          match read2 ls1 with
          | none => (silentOut, [])
          | some (f0, L, ls2) => (rz3 f0 L, ls2)
        else (errOut msgInvalidSel, ls1)
    else (errOut msgInvalidSel, ls0)

-- menu_item_4 of funcs.c: RC transient.
def menu_item_4 (expQ logQ : ℚ → ℚ) (lines : List String) : ModuleOut × List String :=
  match (read_int lines).1 with
  | none => (silentOut, [])
  | some (mode, ls0) =>
    if mode = 1 then
      match read3 ls0 with
      | none => (silentOut, [])
      | some (R, C, t, ls3) => (rc1 expQ R C t, ls3)
    else if mode = 2 then
      match read3 ls0 with
      | none => (silentOut, [])
      | some (R, C, pct, ls3) => (rc2 logQ R C pct, ls3)
    else if mode = 3 then
      match read2 ls0 with
      | none => (silentOut, [])
      | some (tau, t, ls2) => (rc3 expQ tau t, ls2)
    else if mode = 4 then
      match read3 ls0 with
      | none => (silentOut, [])
      | some (R, pct, t, ls3) => (rc4 logQ R pct t, ls3)
    else if mode = 5 then
      match read3 ls0 with
      | none => (silentOut, [])
      | some (C, pct, t, ls3) => (rc5 logQ C pct t, ls3)
    else (errOut msgInvalidSel, ls0)

-- menu_item_5 of funcs.c: power.
def menu_item_5 (lines : List String) : ModuleOut × List String :=
  match (read_int lines).1 with
  | none => (silentOut, [])
  | some (mode, ls0) =>
    if mode = 1 then
      match read2 ls0 with
      | none => (silentOut, [])
      | some (V, I, ls2) => (pw1 V I, ls2)
    else if mode = 2 then
      match read2 ls0 with
      | none => (silentOut, [])
      | some (P, I, ls2) => (pw2 P I, ls2)
    else if mode = 3 then
      match read2 ls0 with
      | none => (silentOut, [])
      | some (P, V, ls2) => (pw3 P V, ls2)
    else (errOut msgInvalidSel, ls0)

-- get_choice of main.c on one buffered line (line terminators already
-- stripped by the line model): strtol scan, errno check, whitespace skip,
-- then the 32-bit conversion of the value; -1 on any failure.
def getChoiceLine (l : String) : ℤ :=
  match scan_long l.data with
  | none => -1
  | some (v, k) =>
    if v < longMin ∨ longMax < v then -1
    else if ((l.data.drop k).dropWhile isSpTab).length = 0 then toInt32 v else -1

-- get_choice over the remaining input lines; -1 when the input is exhausted.
def getChoice : List String → ℤ × List String
  | [] => (-1, [])
  | l :: ls => (getChoiceLine l, ls)

def bLow : String := "b"

def bUp : String := "B"

-- wait_back of main.c: consume lines until one is exactly b or B; none
-- models the exit(1) on end-of-input.
def waitBack : List String → Option (List String)
  | [] => none
  | l :: ls => if l = bLow ∨ l = bUp then some ls else waitBack ls

-- The main loop of main.c with explicit fuel.  The result is the process
-- exit code: some 0 for the quit choice, some 1 for end-of-input at the
-- back prompt, and none when the fuel runs out before the process exits.
def runMain (sqrtQ expQ logQ : ℚ → ℚ) : Nat → List String → Option ℤ
  | 0, _ => none
  | n + 1, lines =>
    let c := (getChoice lines).1
    let ls := (getChoice lines).2
    if c = 7 then some 0
    else if c = 1 then
      match waitBack (menu_item_1 ls).2 with
      | none => some 1
      | some r => runMain sqrtQ expQ logQ n r
    else if c = 2 then
      match waitBack (menu_item_2 ls).2 with
      | none => some 1
      | some r => runMain sqrtQ expQ logQ n r
    else if c = 3 then
      match waitBack (menu_item_3 sqrtQ ls).2 with
      | none => some 1
      | some r => runMain sqrtQ expQ logQ n r
    else if c = 4 then
      match waitBack (menu_item_4 expQ logQ ls).2 with
      | none => some 1
      | some r => runMain sqrtQ expQ logQ n r
    else if c = 5 then
      match waitBack (menu_item_5 ls).2 with
      | none => some 1
      | some r => runMain sqrtQ expQ logQ n r
    else if c = 6 then
      match waitBack ls with
      | none => some 1
      | some r => runMain sqrtQ expQ logQ n r
    else runMain sqrtQ expQ logQ n ls

def idQ : ℚ → ℚ := fun q => q

def optFinite : Option QD → Bool
  | none => true
  | some v => QD.isFinite v

-- Every line of the list that the strict double parser accepts parses to a
-- finite value.
def finiteLines (lines : List String) : Bool :=
  lines.all (fun l => optFinite (parse_double l))

-- Every numeric value displayed by the module run is finite.
def allFiniteDisp (o : ModuleOut) : Prop := o.displayed.all QD.isFinite = true

-- Every division event of the module run is a safe_divide call.
def allSafe (o : ModuleOut) : Prop := o.divs.all DivEvent.isSafe = true

-- Every raw division event of the module run has a nonzero finite
-- denominator.
def rawNonzero (o : ModuleOut) : Prop :=
  ∀ n d, DivEvent.raw n d ∈ o.divs → ∃ q, d = QD.fin q ∧ q ≠ 0

-- When a recorded safe_divide call failed, the module printed an error
-- message, displayed nothing and logged nothing.
def failAborts (o : ModuleOut) : Prop :=
  ∀ n d, DivEvent.safe n d ∈ o.divs → (safe_divide n d).1 = false →
    o.errMsg.isSome = true ∧ o.displayed = [] ∧ o.logs = []

-- Concrete input fixtures used by the closed theorems.
def infLines : List String := [r"1", r"inf", r"2"]

def rcModeOneLines : List String := [r"1", r"1", r"1", r"1"]

def overIntLine : String := "2147483648"

def overLongLine : String := "9223372036854775808"

def overDoubleLine : String := "1e309"

def sevenLines : List String := [r"7"]

def sixLines : List String := [r"6"]

def rcAbortLines : List String := [r"1", r"5"]

def twelveLine : String := "12"

def abcLine : String := "abc"

def infLine : String := "inf"

def nanLine : String := "nan"

-- A sample log model for witnesses: constantly -1, which is negative on all
-- of (0, 1) as the real logarithm is.
def negOneQ : ℚ → ℚ := fun _ => -1

-- No computation was performed by the module run: an error message was
-- printed and nothing was displayed, logged, divided or passed to log().
def noComputation (o : ModuleOut) : Prop :=
  o.errMsg.isSome = true ∧ o.displayed = [] ∧ o.logs = [] ∧ o.divs = [] ∧
    o.lnArgs = []

theorem qadd_eq (a b : ℚ) : qadd a b = a + b := (Rat.add_def' a b).symm

theorem qmul_eq (a b : ℚ) : qmul a b = a * b := by
  rw [qmul, Rat.mul_def, Rat.normalize_eq_mkRat]

theorem qinv_eq (a : ℚ) : qinv a = a⁻¹ := (Rat.inv_def a).symm

theorem qdiv_eq (a b : ℚ) : qdiv a b = a / b := by
  rw [qdiv, qmul_eq, qinv_eq, div_eq_mul_inv]

theorem qsub_eq (a b : ℚ) : qsub a b = a - b := by
  rw [qsub, qadd_eq, sub_eq_add_neg]

theorem natQ_eq (n : ℕ) : natQ n = (n : ℚ) := by
  simp [natQ, Rat.mkRat_one]

theorem qabs_eq (q : ℚ) : qabs q = |q| := by
  rw [qabs, abs]
  rcases lt_trichotomy q 0 with h | h | h
  · simp [h, le_of_lt h, neg_nonneg.mpr (le_of_lt h)]
  · simp [h]
  · simp [not_lt.mpr (le_of_lt h), le_of_lt h]

theorem epsDiv_pos : 0 < epsDiv := by
  rw [epsDiv, Rat.mkRat_eq_div]
  norm_num

theorem isFinite_iff (x : QD) : x.isFinite = true ↔ ∃ q, x = QD.fin q := by
  cases x <;> simp [QD.isFinite]

theorem add_fin (a b : ℚ) : QD.add (QD.fin a) (QD.fin b) = QD.fin (a + b) := by
  rw [QD.add, qadd_eq]

theorem neg_fin (a : ℚ) : QD.neg (QD.fin a) = QD.fin (-a) := rfl

theorem sub_fin (a b : ℚ) : QD.sub (QD.fin a) (QD.fin b) = QD.fin (a - b) := by
  rw [QD.sub, neg_fin, add_fin, sub_eq_add_neg]

theorem mul_fin (a b : ℚ) : QD.mul (QD.fin a) (QD.fin b) = QD.fin (a * b) := by
  rw [QD.mul, qmul_eq]

theorem div_fin (a b : ℚ) (hb : b ≠ 0) :
    QD.div (QD.fin a) (QD.fin b) = QD.fin (a / b) := by
  rw [QD.div, qdiv_eq]
  simp [hb]

theorem le_fin (a b : ℚ) : QD.le (QD.fin a) (QD.fin b) = true ↔ a ≤ b := by
  simp [QD.le]

theorem lt_fin (a b : ℚ) : QD.lt (QD.fin a) (QD.fin b) = true ↔ a < b := by
  simp [QD.lt]

theorem beq_fin_zero (x : QD) : QD.beq x (QD.fin 0) = true ↔ x = QD.fin 0 := by
  cases x <;> simp [QD.beq]

theorem expE_fin (expQ : ℚ → ℚ) (a : ℚ) :
    QD.expE expQ (QD.fin a) = QD.fin (expQ a) := rfl

theorem logE_fin_pos (logQ : ℚ → ℚ) (a : ℚ) (ha : 0 < a) :
    QD.logE logQ (QD.fin a) = QD.fin (logQ a) := by
  simp [QD.logE, ha]

theorem safe_divide_eval (num den : QD) :
    safe_divide num den =
      if QD.lt (QD.abs den) (QD.fin epsDiv) then (false, QD.fin 0)
      else (true, QD.div num den) := rfl

theorem safe_divide_fail (num den : QD)
    (h : (safe_divide num den).1 = false) : safe_divide num den = (false, QD.fin 0) := by
  by_cases hc : QD.lt (QD.abs den) (QD.fin epsDiv) = true
  · rw [safe_divide, if_pos hc]
  · rw [safe_divide, if_neg hc] at h
    simp at h

theorem safe_divide_ok (num den : QD)
    (h : (safe_divide num den).1 = true) : safe_divide num den = (true, QD.div num den) := by
  by_cases hc : QD.lt (QD.abs den) (QD.fin epsDiv) = true
  · rw [safe_divide, if_pos hc] at h
    simp at h
  · rw [safe_divide, if_neg hc]

theorem safe_divide_ok_den_ne (a b : ℚ)
    (h : (safe_divide (QD.fin a) (QD.fin b)).1 = true) : b ≠ 0 := by
  intro hb
  rw [safe_divide] at h
  rw [hb] at h
  have : QD.lt (QD.abs (QD.fin 0)) (QD.fin epsDiv) = true := by
    simp [QD.abs, QD.lt, qabs]
    exact epsDiv_pos
  rw [if_pos this] at h
  simp at h

theorem safe_divide_fin_ok_isFinite (a b : ℚ)
    (h : (safe_divide (QD.fin a) (QD.fin b)).1 = true) :
    (safe_divide (QD.fin a) (QD.fin b)).2.isFinite = true := by
  have hb := safe_divide_ok_den_ne a b h
  rw [safe_divide_ok _ _ h, div_fin a b hb]
  rfl

theorem dropWhile_spTab_nil (cs : List Char) :
    (cs.dropWhile isSpTab).length = 0 ↔ ∀ c ∈ cs, isSpTab c = true := by
  rw [List.length_eq_zero, List.dropWhile_eq_nil_iff]

theorem parse_long_iff (s : String) :
    (parse_long s).isSome = true ↔
      s.data ≠ [] ∧ ∃ v k, scan_long s.data = some (v, k) ∧
        longMin ≤ v ∧ v ≤ longMax ∧ ∀ c ∈ s.data.drop k, isSpTab c = true := by
  simp only [parse_long]
  by_cases h0 : s.data.length = 0
  · rw [if_pos h0]
    simp [List.length_eq_zero.mp h0]
  · rw [if_neg h0]
    cases hsc : scan_long s.data with
    | none => simp [hsc]
    | some vk =>
      obtain ⟨v, k⟩ := vk
      dsimp only
      by_cases hr : v < longMin ∨ longMax < v
      · rw [if_pos hr]
        simp only [Option.isSome_none, Bool.false_eq_true, false_iff]
        rintro ⟨-, v', k', heq, h1, h2, -⟩
        obtain ⟨rfl, rfl⟩ : v = v' ∧ k = k' := by
          constructor <;> injection heq with h3 <;> simp_all
        rcases hr with hr | hr
        · exact absurd h1 (not_le.mpr hr)
        · exact absurd h2 (not_le.mpr hr)
      · rw [if_neg hr]
        rw [not_or, not_lt, not_lt] at hr
        by_cases ht : ((s.data.drop k).dropWhile isSpTab).length = 0
        · rw [if_pos ht]
          simp only [Option.isSome_some, true_iff]
          refine ⟨fun he => h0 (by simp [he]), v, k, rfl, hr.1, hr.2, ?_⟩
          exact (dropWhile_spTab_nil _).mp ht
        · rw [if_neg ht]
          simp only [Option.isSome_none, Bool.false_eq_true, false_iff]
          rintro ⟨-, v', k', heq, -, -, hws⟩
          obtain ⟨rfl, rfl⟩ : v = v' ∧ k = k' := by
            constructor <;> injection heq with h3 <;> simp_all
          exact ht ((dropWhile_spTab_nil _).mpr hws)

theorem parse_double_iff (s : String) :
    (parse_double s).isSome = true ↔
      s.data ≠ [] ∧ ∃ v k, scan_double s.data = some (v, k) ∧
        dblOverflow v = false ∧ ∀ c ∈ s.data.drop k, isSpTab c = true := by
  simp only [parse_double]
  by_cases h0 : s.data.length = 0
  · rw [if_pos h0]
    simp [List.length_eq_zero.mp h0]
  · rw [if_neg h0]
    cases hsc : scan_double s.data with
    | none => simp [hsc]
    | some vk =>
      obtain ⟨v, k⟩ := vk
      dsimp only
      by_cases hr : dblOverflow v = true
      · rw [if_pos hr]
        simp only [Option.isSome_none, Bool.false_eq_true, false_iff]
        rintro ⟨-, v', k', heq, h1, -⟩
        obtain ⟨rfl, rfl⟩ : v = v' ∧ k = k' := by
          constructor <;> injection heq with h3 <;> simp_all
        rw [hr] at h1
        exact absurd h1 (by simp)
      · rw [if_neg hr]
        by_cases ht : ((s.data.drop k).dropWhile isSpTab).length = 0
        · rw [if_pos ht]
          simp only [Option.isSome_some, true_iff]
          refine ⟨fun he => h0 (by simp [he]), v, k, rfl, by simpa using hr, ?_⟩
          exact (dropWhile_spTab_nil _).mp ht
        · rw [if_neg ht]
          simp only [Option.isSome_none, Bool.false_eq_true, false_iff]
          rintro ⟨-, v', k', heq, -, hws⟩
          obtain ⟨rfl, rfl⟩ : v = v' ∧ k = k' := by
            constructor <;> injection heq with h3 <;> simp_all
          exact ht ((dropWhile_spTab_nil _).mpr hws)

theorem read_double_first (pre : List String) (l : String) (post : List String) (v : QD)
    (hpre : ∀ x ∈ pre, parse_double x = none) (hl : parse_double l = some v) :
    read_double (pre ++ l :: post) = (some (v, post), pre.length) := by
  induction pre with
  | nil => simp [read_double, hl]
  | cons a as ih =>
    have ha : parse_double a = none := hpre a (by simp)
    have ih' := ih (fun x hx => hpre x (by simp [hx]))
    simp [read_double, ha, ih']

theorem read_double_exhaust (lines : List String)
    (h : ∀ l ∈ lines, parse_double l = none) :
    read_double lines = (none, lines.length) := by
  induction lines with
  | nil => rfl
  | cons l ls ih =>
    have hl : parse_double l = none := h l (by simp)
    have ih' := ih (fun x hx => h x (by simp [hx]))
    simp [read_double, hl, ih']

theorem read_int_first (pre : List String) (l : String) (post : List String) (w : ℤ)
    (hpre : ∀ x ∈ pre, parse_long x = none) (hl : parse_long l = some w) :
    read_int (pre ++ l :: post) = (some (toInt32 w, post), pre.length) := by
  induction pre with
  | nil => simp [read_int, hl]
  | cons a as ih =>
    have ha : parse_long a = none := hpre a (by simp)
    have ih' := ih (fun x hx => hpre x (by simp [hx]))
    simp [read_int, ha, ih']

theorem read_int_exhaust (lines : List String)
    (h : ∀ l ∈ lines, parse_long l = none) :
    read_int lines = (none, lines.length) := by
  induction lines with
  | nil => rfl
  | cons l ls ih =>
    have hl : parse_long l = none := h l (by simp)
    have ih' := ih (fun x hx => h x (by simp [hx]))
    simp [read_int, hl, ih']

theorem finiteLines_cons (l : String) (ls : List String) :
    finiteLines (l :: ls) = true ↔
      optFinite (parse_double l) = true ∧ finiteLines ls = true := by
  simp [finiteLines]

theorem read_double_finite (lines : List String) (h : finiteLines lines = true) :
    ∀ v rest, (read_double lines).1 = some (v, rest) →
      v.isFinite = true ∧ finiteLines rest = true := by
  induction lines with
  | nil =>
    intro v rest h'
    simp [read_double] at h'
  | cons l ls ih =>
    intro v rest h'
    obtain ⟨h1, h2⟩ := (finiteLines_cons l ls).mp h
    cases hp : parse_double l with
    | some w =>
      rw [read_double, hp] at h'
      simp only [Option.some.injEq, Prod.mk.injEq] at h'
      obtain ⟨rfl, rfl⟩ := h'
      rw [hp] at h1
      exact ⟨by simpa [optFinite] using h1, h2⟩
    | none =>
      rw [read_double, hp] at h'
      exact ih h2 v rest h'

theorem read_int_finite (lines : List String) (h : finiteLines lines = true) :
    ∀ m rest, (read_int lines).1 = some (m, rest) → finiteLines rest = true := by
  induction lines with
  | nil =>
    intro m rest h'
    simp [read_int] at h'
  | cons l ls ih =>
    intro m rest h'
    obtain ⟨-, h2⟩ := (finiteLines_cons l ls).mp h
    cases hp : parse_long l with
    | some w =>
      rw [read_int, hp] at h'
      simp only [Option.some.injEq, Prod.mk.injEq] at h'
      obtain ⟨rfl, rfl⟩ := h'
      exact h2
    | none =>
      rw [read_int, hp] at h'
      exact ih h2 m rest h'

theorem read2_finite (lines : List String) (h : finiteLines lines = true)
    (a b : QD) (rest : List String) (h' : read2 lines = some (a, b, rest)) :
    a.isFinite = true ∧ b.isFinite = true ∧ finiteLines rest = true := by
  rw [read2] at h'
  cases h1 : (read_double lines).1 with
  | none => rw [h1] at h'; exact absurd h' (by simp)
  | some p1 =>
    obtain ⟨a1, ls1⟩ := p1
    rw [h1] at h'
    dsimp only at h'
    obtain ⟨hfa, hf1⟩ := read_double_finite lines h a1 ls1 h1
    cases h2 : (read_double ls1).1 with
    | none => rw [h2] at h'; exact absurd h' (by simp)
    | some p2 =>
      obtain ⟨b1, ls2⟩ := p2
      rw [h2] at h'
      dsimp only at h'
      obtain ⟨hfb, hf2⟩ := read_double_finite ls1 hf1 b1 ls2 h2
      simp only [Option.some.injEq, Prod.mk.injEq] at h'
      obtain ⟨rfl, rfl, rfl⟩ := h'
      exact ⟨hfa, hfb, hf2⟩

theorem read3_finite (lines : List String) (h : finiteLines lines = true)
    (a b c : QD) (rest : List String) (h' : read3 lines = some (a, b, c, rest)) :
    a.isFinite = true ∧ b.isFinite = true ∧ c.isFinite = true ∧
      finiteLines rest = true := by
  rw [read3] at h'
  cases h1 : (read_double lines).1 with
  | none => rw [h1] at h'; exact absurd h' (by simp)
  | some p1 =>
    obtain ⟨a1, ls1⟩ := p1
    rw [h1] at h'
    dsimp only at h'
    obtain ⟨hfa, hf1⟩ := read_double_finite lines h a1 ls1 h1
    cases h2 : (read_double ls1).1 with
    | none => rw [h2] at h'; exact absurd h' (by simp)
    | some p2 =>
      obtain ⟨b1, ls2⟩ := p2
      rw [h2] at h'
      dsimp only at h'
      obtain ⟨hfb, hf2⟩ := read_double_finite ls1 hf1 b1 ls2 h2
      cases h3 : (read_double ls2).1 with
      | none => rw [h3] at h'; exact absurd h' (by simp)
      | some p3 =>
        obtain ⟨c1, ls3⟩ := p3
        rw [h3] at h'
        dsimp only at h'
        obtain ⟨hfc, hf3⟩ := read_double_finite ls2 hf2 c1 ls3 h3
        simp only [Option.some.injEq, Prod.mk.injEq] at h'
        obtain ⟨rfl, rfl, rfl, rfl⟩ := h'
        exact ⟨hfa, hfb, hfc, hf3⟩

theorem readNDoubles_finite (n : Nat) :
    ∀ lines, finiteLines lines = true →
      ∀ vs rest, readNDoubles n lines = some (vs, rest) →
        vs.all QD.isFinite = true ∧ finiteLines rest = true := by
  induction n with
  | zero =>
    intro lines h vs rest h'
    rw [readNDoubles] at h'
    simp only [Option.some.injEq, Prod.mk.injEq] at h'
    obtain ⟨rfl, rfl⟩ := h'
    exact ⟨rfl, h⟩
  | succ m ih =>
    intro lines h vs rest h'
    rw [readNDoubles] at h'
    cases h1 : (read_double lines).1 with
    | none => rw [h1] at h'; exact absurd h' (by simp)
    | some p1 =>
      obtain ⟨v1, ls1⟩ := p1
      rw [h1] at h'
      dsimp only at h'
      obtain ⟨hfv, hf1⟩ := read_double_finite lines h v1 ls1 h1
      cases h2 : readNDoubles m ls1 with
      | none => rw [h2] at h'; exact absurd h' (by simp)
      | some p2 =>
        obtain ⟨vs1, ls2⟩ := p2
        rw [h2] at h'
        dsimp only at h'
        obtain ⟨hall, hf2⟩ := ih ls1 hf1 vs1 ls2 h2
        simp only [Option.some.injEq, Prod.mk.injEq] at h'
        obtain ⟨rfl, rfl⟩ := h'
        exact ⟨by simp [hfv, hall], hf2⟩

theorem neg_finite (x : QD) (hx : x.isFinite = true) : (QD.neg x).isFinite = true := by
  obtain ⟨q, rfl⟩ := (isFinite_iff x).mp hx
  rfl

theorem add_finite (x y : QD) (hx : x.isFinite = true) (hy : y.isFinite = true) :
    (QD.add x y).isFinite = true := by
  obtain ⟨a, rfl⟩ := (isFinite_iff x).mp hx
  obtain ⟨b, rfl⟩ := (isFinite_iff y).mp hy
  rw [add_fin]
  rfl

theorem sub_finite (x y : QD) (hx : x.isFinite = true) (hy : y.isFinite = true) :
    (QD.sub x y).isFinite = true := by
  obtain ⟨a, rfl⟩ := (isFinite_iff x).mp hx
  obtain ⟨b, rfl⟩ := (isFinite_iff y).mp hy
  rw [sub_fin]
  rfl

theorem mul_finite (x y : QD) (hx : x.isFinite = true) (hy : y.isFinite = true) :
    (QD.mul x y).isFinite = true := by
  obtain ⟨a, rfl⟩ := (isFinite_iff x).mp hx
  obtain ⟨b, rfl⟩ := (isFinite_iff y).mp hy
  rw [mul_fin]
  rfl

theorem div_finite (x y : QD) (hx : x.isFinite = true) (hy : y.isFinite = true)
    (hne : y ≠ QD.fin 0) : (QD.div x y).isFinite = true := by
  obtain ⟨a, rfl⟩ := (isFinite_iff x).mp hx
  obtain ⟨b, rfl⟩ := (isFinite_iff y).mp hy
  rw [div_fin a b (fun hb => hne (by rw [hb]))]
  rfl

theorem expE_finite (expQ : ℚ → ℚ) (x : QD) (hx : x.isFinite = true) :
    (QD.expE expQ x).isFinite = true := by
  obtain ⟨q, rfl⟩ := (isFinite_iff x).mp hx
  rfl

theorem safe_divide_ok_finite (num den : QD) (hn : num.isFinite = true)
    (hd : den.isFinite = true) (hs : (safe_divide num den).1 = true) :
    (safe_divide num den).2.isFinite = true := by
  obtain ⟨a, rfl⟩ := (isFinite_iff num).mp hn
  obtain ⟨b, rfl⟩ := (isFinite_iff den).mp hd
  exact safe_divide_fin_ok_isFinite a b hs

theorem failAborts_of_err (o : ModuleOut) (he : o.errMsg.isSome = true)
    (hd : o.displayed = []) (hl : o.logs = []) : failAborts o :=
  fun _ _ _ _ => ⟨he, hd, hl⟩

theorem failAborts_nil (o : ModuleOut) (h : o.divs = []) : failAborts o := by
  intro n d hmem
  rw [h] at hmem
  exact absurd hmem (by simp)

theorem failAborts_safe_ok (o : ModuleOut) (ns ds : QD)
    (h : o.divs = [DivEvent.safe ns ds]) (hs : (safe_divide ns ds).1 = true) :
    failAborts o := by
  intro n d hmem hfail
  rw [h] at hmem
  simp only [List.mem_singleton, DivEvent.safe.injEq] at hmem
  obtain ⟨rfl, rfl⟩ := hmem
  rw [hs] at hfail
  exact absurd hfail (by simp)

theorem failAborts_raws (o : ModuleOut) (n1 d1 n2 d2 : QD)
    (h : o.divs = [DivEvent.raw n1 d1, DivEvent.raw n2 d2]) : failAborts o := by
  intro n d hmem
  rw [h] at hmem
  simp at hmem

theorem failAborts_raw_safe_ok (o : ModuleOut) (nr dr ns ds : QD)
    (h : o.divs = [DivEvent.raw nr dr, DivEvent.safe ns ds])
    (hs : (safe_divide ns ds).1 = true) : failAborts o := by
  intro n d hmem hfail
  rw [h] at hmem
  simp only [List.mem_cons] at hmem
  rcases hmem with hmem | hmem | hmem
  · exact absurd hmem (by simp)
  · simp only [DivEvent.safe.injEq] at hmem
    obtain ⟨rfl, rfl⟩ := hmem
    rw [hs] at hfail
    exact absurd hfail (by simp)
  · exact absurd hmem (by simp)

theorem le_fin_false (a b : ℚ) (h : QD.le (QD.fin a) (QD.fin b) = false) : ¬a ≤ b := by
  intro hab
  rw [(le_fin a b).mpr hab] at h
  exact absurd h (by simp)

theorem lt_fin_false (a b : ℚ) (h : QD.lt (QD.fin a) (QD.fin b) = false) : ¬a < b := by
  intro hab
  rw [(lt_fin a b).mpr hab] at h
  exact absurd h (by simp)

theorem fin_ne_zero (q : ℚ) (h : q ≠ 0) : QD.fin q ≠ QD.fin 0 := by
  intro he
  injection he with h2
  exact h h2

theorem errOut_goodS (m : String) :
    allFiniteDisp (errOut m) ∧ allSafe (errOut m) ∧ failAborts (errOut m) :=
  ⟨rfl, rfl, failAborts_of_err _ rfl rfl rfl⟩

theorem silentOut_goodS :
    allFiniteDisp silentOut ∧ allSafe silentOut ∧ failAborts silentOut :=
  ⟨rfl, rfl, failAborts_nil _ rfl⟩

theorem rawNonzero_nil (o : ModuleOut) (h : o.divs = []) : rawNonzero o := by
  intro n d hmem
  rw [h] at hmem
  exact absurd hmem (by simp)

theorem errOut_goodR (m : String) :
    allFiniteDisp (errOut m) ∧ rawNonzero (errOut m) ∧ failAborts (errOut m) :=
  ⟨rfl, rawNonzero_nil _ rfl, failAborts_of_err _ rfl rfl rfl⟩

theorem silentOut_goodR :
    allFiniteDisp silentOut ∧ rawNonzero silentOut ∧ failAborts silentOut :=
  ⟨rfl, rawNonzero_nil _ rfl, failAborts_nil _ rfl⟩

theorem rawNonzero_pair (o : ModuleOut) (n1 n2 : QD) (q1 q2 : ℚ)
    (h : o.divs = [DivEvent.raw n1 (QD.fin q1), DivEvent.raw n2 (QD.fin q2)])
    (h1 : q1 ≠ 0) (h2 : q2 ≠ 0) : rawNonzero o := by
  intro n d hmem
  rw [h] at hmem
  simp only [List.mem_cons] at hmem
  rcases hmem with hmem | hmem | hmem
  · simp only [DivEvent.raw.injEq] at hmem
    exact ⟨q1, hmem.2, h1⟩
  · simp only [DivEvent.raw.injEq] at hmem
    exact ⟨q2, hmem.2, h2⟩
  · exact absurd hmem (by simp)

theorem rawNonzero_raw_safe (o : ModuleOut) (n1 : QD) (q1 : ℚ) (ns ds : QD)
    (h : o.divs = [DivEvent.raw n1 (QD.fin q1), DivEvent.safe ns ds])
    (h1 : q1 ≠ 0) : rawNonzero o := by
  intro n d hmem
  rw [h] at hmem
  simp only [List.mem_cons] at hmem
  rcases hmem with hmem | hmem | hmem
  · simp only [DivEvent.raw.injEq] at hmem
    exact ⟨q1, hmem.2, h1⟩
  · exact absurd hmem (by simp)
  · exact absurd hmem (by simp)

theorem foldl_add_finite (rs : List QD) : ∀ init : QD, rs.all QD.isFinite = true →
    init.isFinite = true → (rs.foldl QD.add init).isFinite = true := by
  induction rs with
  | nil =>
    intro init h hi
    exact hi
  | cons x xs ih =>
    intro init h hi
    rw [List.all_cons, Bool.and_eq_true] at h
    rw [List.foldl_cons]
    exact ih (QD.add init x) h.2 (add_finite init x hi h.1)

theorem vd1_good (Vin R1 R2 : QD) (hV : Vin.isFinite = true) (h1 : R1.isFinite = true)
    (h2 : R2.isFinite = true) :
    allFiniteDisp (vd1 Vin R1 R2) ∧ allSafe (vd1 Vin R1 R2) ∧ failAborts (vd1 Vin R1 R2) := by
  simp only [vd1]
  split
  next hs =>
    refine ⟨?_, rfl, failAborts_safe_ok _ _ _ rfl hs⟩
    have hden := add_finite R1 R2 h1 h2
    have hq := safe_divide_ok_finite R2 (QD.add R1 R2) h2 hden hs
    simp [allFiniteDisp, mul_finite _ _ hV hq]
  next hs =>
    exact ⟨rfl, rfl, failAborts_of_err _ rfl rfl rfl⟩

theorem vd2_good (Vout R1 R2 : QD) (hV : Vout.isFinite = true) (h1 : R1.isFinite = true)
    (h2 : R2.isFinite = true) :
    allFiniteDisp (vd2 Vout R1 R2) ∧ allSafe (vd2 Vout R1 R2) ∧ failAborts (vd2 Vout R1 R2) := by
  simp only [vd2]
  split
  next hs =>
    refine ⟨?_, rfl, failAborts_safe_ok _ _ _ rfl hs⟩
    have hnum := add_finite R1 R2 h1 h2
    have hq := safe_divide_ok_finite (QD.add R1 R2) R2 hnum h2 hs
    simp [allFiniteDisp, mul_finite _ _ hV hq]
  next hs =>
    exact ⟨rfl, rfl, failAborts_of_err _ rfl rfl rfl⟩

theorem vd3_good (Vin Vout R2 : QD) (hV : Vin.isFinite = true) (h1 : Vout.isFinite = true)
    (h2 : R2.isFinite = true) :
    allFiniteDisp (vd3 Vin Vout R2) ∧ allSafe (vd3 Vin Vout R2) ∧ failAborts (vd3 Vin Vout R2) := by
  simp only [vd3]
  split
  next hs =>
    refine ⟨?_, rfl, failAborts_safe_ok _ _ _ rfl hs⟩
    have hq := safe_divide_ok_finite Vin Vout hV h1 hs
    have hsub := sub_finite _ (QD.fin 1) hq rfl
    simp [allFiniteDisp, mul_finite _ _ h2 hsub]
  next hs =>
    exact ⟨rfl, rfl, failAborts_of_err _ rfl rfl rfl⟩

theorem vd4_good (Vin Vout R1 : QD) (hV : Vin.isFinite = true) (h1 : Vout.isFinite = true)
    (h2 : R1.isFinite = true) :
    allFiniteDisp (vd4 Vin Vout R1) ∧ allSafe (vd4 Vin Vout R1) ∧ failAborts (vd4 Vin Vout R1) := by
  simp only [vd4]
  split
  next hs =>
    refine ⟨?_, rfl, failAborts_safe_ok _ _ _ rfl hs⟩
    have hden := sub_finite Vin Vout hV h1
    have hq := safe_divide_ok_finite Vout (QD.sub Vin Vout) h1 hden hs
    simp [allFiniteDisp, mul_finite _ _ h2 hq]
  next hs =>
    exact ⟨rfl, rfl, failAborts_of_err _ rfl rfl rfl⟩

theorem ser1_good (n : ℤ) (rs : List QD) (hrs : rs.all QD.isFinite = true) :
    allFiniteDisp (ser1 n rs) ∧ allSafe (ser1 n rs) ∧ failAborts (ser1 n rs) := by
  refine ⟨?_, rfl, failAborts_nil _ rfl⟩
  simp [ser1, allFiniteDisp, foldl_add_finite rs (QD.fin 0) hrs rfl]

theorem ser2_good (n : ℤ) (Rt : QD) (rs : List QD) (hRt : Rt.isFinite = true)
    (hrs : rs.all QD.isFinite = true) :
    allFiniteDisp (ser2 n Rt rs) ∧ allSafe (ser2 n Rt rs) ∧ failAborts (ser2 n Rt rs) := by
  refine ⟨?_, rfl, failAborts_nil _ rfl⟩
  have hsum := foldl_add_finite rs (QD.fin 0) hrs rfl
  simp [ser2, allFiniteDisp, sub_finite _ _ hRt hsum]

theorem par2Req_good (R1 R2 : QD) (h1 : R1.isFinite = true) (h2 : R2.isFinite = true) :
    allFiniteDisp (par2Req R1 R2) ∧ allSafe (par2Req R1 R2) ∧ failAborts (par2Req R1 R2) := by
  simp only [par2Req]
  split
  next hz =>
    exact ⟨rfl, rfl, failAborts_nil _ rfl⟩
  next hz =>
    split
    next hs =>
      refine ⟨?_, rfl, failAborts_safe_ok _ _ _ rfl hs⟩
      have hnum := mul_finite R1 R2 h1 h2
      have hden := add_finite R1 R2 h1 h2
      have hq := safe_divide_ok_finite (QD.mul R1 R2) (QD.add R1 R2) hnum hden hs
      simp [allFiniteDisp, hq]
    next hs =>
      exact ⟨rfl, rfl, failAborts_of_err _ rfl rfl rfl⟩

theorem par2SolveR1_good (Req R2 : QD) (h1 : Req.isFinite = true) (h2 : R2.isFinite = true) :
    allFiniteDisp (par2SolveR1 Req R2) ∧ allSafe (par2SolveR1 Req R2) ∧
      failAborts (par2SolveR1 Req R2) := by
  simp only [par2SolveR1]
  split
  next hs =>
    refine ⟨?_, rfl, failAborts_safe_ok _ _ _ rfl hs⟩
    have hnum := mul_finite Req R2 h1 h2
    have hden := sub_finite R2 Req h2 h1
    have hq := safe_divide_ok_finite (QD.mul Req R2) (QD.sub R2 Req) hnum hden hs
    simp [allFiniteDisp, hq]
  next hs =>
    exact ⟨rfl, rfl, failAborts_of_err _ rfl rfl rfl⟩

theorem par2SolveR2_good (Req R1 : QD) (h1 : Req.isFinite = true) (h2 : R1.isFinite = true) :
    allFiniteDisp (par2SolveR2 Req R1) ∧ allSafe (par2SolveR2 Req R1) ∧
      failAborts (par2SolveR2 Req R1) := by
  simp only [par2SolveR2]
  split
  next hs =>
    refine ⟨?_, rfl, failAborts_safe_ok _ _ _ rfl hs⟩
    have hnum := mul_finite Req R1 h1 h2
    have hden := sub_finite R1 Req h2 h1
    have hq := safe_divide_ok_finite (QD.mul Req R1) (QD.sub R1 Req) hnum hden hs
    simp [allFiniteDisp, hq]
  next hs =>
    exact ⟨rfl, rfl, failAborts_of_err _ rfl rfl rfl⟩

theorem pw1_good (V I : QD) (h1 : V.isFinite = true) (h2 : I.isFinite = true) :
    allFiniteDisp (pw1 V I) ∧ allSafe (pw1 V I) ∧ failAborts (pw1 V I) := by
  refine ⟨?_, rfl, failAborts_nil _ rfl⟩
  simp [pw1, allFiniteDisp, mul_finite V I h1 h2]

theorem pw2_good (P I : QD) (h1 : P.isFinite = true) (h2 : I.isFinite = true) :
    allFiniteDisp (pw2 P I) ∧ allSafe (pw2 P I) ∧ failAborts (pw2 P I) := by
  simp only [pw2]
  split
  next hs =>
    refine ⟨?_, rfl, failAborts_safe_ok _ _ _ rfl hs⟩
    simp [allFiniteDisp, safe_divide_ok_finite P I h1 h2 hs]
  next hs =>
    exact ⟨rfl, rfl, failAborts_of_err _ rfl rfl rfl⟩

theorem pw3_good (P V : QD) (h1 : P.isFinite = true) (h2 : V.isFinite = true) :
    allFiniteDisp (pw3 P V) ∧ allSafe (pw3 P V) ∧ failAborts (pw3 P V) := by
  simp only [pw3]
  split
  next hs =>
    refine ⟨?_, rfl, failAborts_safe_ok _ _ _ rfl hs⟩
    simp [allFiniteDisp, safe_divide_ok_finite P V h1 h2 hs]
  next hs =>
    exact ⟨rfl, rfl, failAborts_of_err _ rfl rfl rfl⟩

theorem xl1_good (f L : QD) (h1 : f.isFinite = true) (h2 : L.isFinite = true) :
    allFiniteDisp (xl1 f L) ∧ allSafe (xl1 f L) ∧ failAborts (xl1 f L) := by
  simp only [xl1]
  split
  next hg => exact errOut_goodS _
  next hg =>
    refine ⟨?_, rfl, failAborts_nil _ rfl⟩
    have hx := mul_finite _ L (mul_finite _ f (mul_finite (QD.fin 2) (QD.fin piQ) rfl rfl) h1) h2
    simp [allFiniteDisp, hx]

theorem xl2_good (XL f : QD) (h1 : XL.isFinite = true) (h2 : f.isFinite = true) :
    allFiniteDisp (xl2 XL f) ∧ allSafe (xl2 XL f) ∧ failAborts (xl2 XL f) := by
  simp only [xl2]
  split
  next hg => exact errOut_goodS _
  next hg =>
    split
    next hs =>
      refine ⟨?_, rfl, failAborts_safe_ok _ _ _ rfl hs⟩
      have hden := mul_finite _ f (mul_finite (QD.fin 2) (QD.fin piQ) rfl rfl) h2
      simp [allFiniteDisp, safe_divide_ok_finite XL _ h1 hden hs]
    next hs =>
      exact ⟨rfl, rfl, failAborts_of_err _ rfl rfl rfl⟩

theorem xl3_good (XL L : QD) (h1 : XL.isFinite = true) (h2 : L.isFinite = true) :
    allFiniteDisp (xl3 XL L) ∧ allSafe (xl3 XL L) ∧ failAborts (xl3 XL L) := by
  simp only [xl3]
  split
  next hg => exact errOut_goodS _
  next hg =>
    split
    next hs =>
      refine ⟨?_, rfl, failAborts_safe_ok _ _ _ rfl hs⟩
      have hden := mul_finite _ L (mul_finite (QD.fin 2) (QD.fin piQ) rfl rfl) h2
      simp [allFiniteDisp, safe_divide_ok_finite XL _ h1 hden hs]
    next hs =>
      exact ⟨rfl, rfl, failAborts_of_err _ rfl rfl rfl⟩

theorem xc1_good (f C : QD) (h1 : f.isFinite = true) (h2 : C.isFinite = true) :
    allFiniteDisp (xc1 f C) ∧ allSafe (xc1 f C) ∧ failAborts (xc1 f C) := by
  simp only [xc1]
  split
  next hg => exact errOut_goodS _
  next hg =>
    split
    next hs =>
      refine ⟨?_, rfl, failAborts_safe_ok _ _ _ rfl hs⟩
      have hden := mul_finite _ C (mul_finite _ f (mul_finite (QD.fin 2) (QD.fin piQ) rfl rfl) h1) h2
      simp [allFiniteDisp, safe_divide_ok_finite (QD.fin 1) _ rfl hden hs]
    next hs =>
      exact ⟨rfl, rfl, failAborts_of_err _ rfl rfl rfl⟩

theorem xc2_good (XC f : QD) (h1 : XC.isFinite = true) (h2 : f.isFinite = true) :
    allFiniteDisp (xc2 XC f) ∧ allSafe (xc2 XC f) ∧ failAborts (xc2 XC f) := by
  simp only [xc2]
  split
  next hg => exact errOut_goodS _
  next hg =>
    split
    next hs =>
      refine ⟨?_, rfl, failAborts_safe_ok _ _ _ rfl hs⟩
      have hden := mul_finite _ XC (mul_finite _ f (mul_finite (QD.fin 2) (QD.fin piQ) rfl rfl) h2) h1
      simp [allFiniteDisp, safe_divide_ok_finite (QD.fin 1) _ rfl hden hs]
    next hs =>
      exact ⟨rfl, rfl, failAborts_of_err _ rfl rfl rfl⟩

theorem xc3_good (XC C : QD) (h1 : XC.isFinite = true) (h2 : C.isFinite = true) :
    allFiniteDisp (xc3 XC C) ∧ allSafe (xc3 XC C) ∧ failAborts (xc3 XC C) := by
  simp only [xc3]
  split
  next hg => exact errOut_goodS _
  next hg =>
    split
    next hs =>
      refine ⟨?_, rfl, failAborts_safe_ok _ _ _ rfl hs⟩
      have hden := mul_finite _ XC (mul_finite _ C (mul_finite (QD.fin 2) (QD.fin piQ) rfl rfl) h2) h1
      simp [allFiniteDisp, safe_divide_ok_finite (QD.fin 1) _ rfl hden hs]
    next hs =>
      exact ⟨rfl, rfl, failAborts_of_err _ rfl rfl rfl⟩

theorem rz1_good (sqrtQ : ℚ → ℚ) (L C : QD) (h1 : L.isFinite = true)
    (h2 : C.isFinite = true) :
    allFiniteDisp (rz1 sqrtQ L C) ∧ allSafe (rz1 sqrtQ L C) ∧ failAborts (rz1 sqrtQ L C) := by
  obtain ⟨l, rfl⟩ := (isFinite_iff L).mp h1
  obtain ⟨c, rfl⟩ := (isFinite_iff C).mp h2
  simp only [rz1]
  split
  next hg => exact errOut_goodS _
  next hg =>
    rw [Bool.or_eq_true, not_or] at hg
    obtain ⟨hg1, hg2⟩ := hg
    have hl : 0 < l := not_le.mp (fun hle => hg1 ((le_fin l 0).mpr hle))
    have hc : 0 < c := not_le.mp (fun hle => hg2 ((le_fin c 0).mpr hle))
    have hsq : (QD.sqrtE sqrtQ (QD.mul (QD.fin l) (QD.fin c))).isFinite = true := by
      rw [mul_fin, QD.sqrtE, if_pos (le_of_lt (mul_pos hl hc))]
      rfl
    split
    next hs =>
      refine ⟨?_, rfl, failAborts_safe_ok _ _ _ rfl hs⟩
      have hden := mul_finite _ _ (mul_finite (QD.fin 2) (QD.fin piQ) rfl rfl) hsq
      simp [allFiniteDisp, safe_divide_ok_finite (QD.fin 1) _ rfl hden hs]
    next hs =>
      exact ⟨rfl, rfl, failAborts_of_err _ rfl rfl rfl⟩

theorem rz2_good (f0 C : QD) (h1 : f0.isFinite = true) (h2 : C.isFinite = true) :
    allFiniteDisp (rz2 f0 C) ∧ allSafe (rz2 f0 C) ∧ failAborts (rz2 f0 C) := by
  simp only [rz2]
  split
  next hg => exact errOut_goodS _
  next hg =>
    split
    next hs =>
      refine ⟨?_, rfl, failAborts_safe_ok _ _ _ rfl hs⟩
      have ha := mul_finite _ f0 (mul_finite (QD.fin 2) (QD.fin piQ) rfl rfl) h1
      have hden := mul_finite _ C (mul_finite _ _ ha ha) h2
      simp [allFiniteDisp, safe_divide_ok_finite (QD.fin 1) _ rfl hden hs]
    next hs =>
      exact ⟨rfl, rfl, failAborts_of_err _ rfl rfl rfl⟩

theorem rz3_good (f0 L : QD) (h1 : f0.isFinite = true) (h2 : L.isFinite = true) :
    allFiniteDisp (rz3 f0 L) ∧ allSafe (rz3 f0 L) ∧ failAborts (rz3 f0 L) := by
  simp only [rz3]
  split
  next hg => exact errOut_goodS _
  next hg =>
    split
    next hs =>
      refine ⟨?_, rfl, failAborts_safe_ok _ _ _ rfl hs⟩
      have ha := mul_finite _ f0 (mul_finite (QD.fin 2) (QD.fin piQ) rfl rfl) h1
      have hden := mul_finite _ L (mul_finite _ _ ha ha) h2
      simp [allFiniteDisp, safe_divide_ok_finite (QD.fin 1) _ rfl hden hs]
    next hs =>
      exact ⟨rfl, rfl, failAborts_of_err _ rfl rfl rfl⟩

theorem rc1_good (expQ : ℚ → ℚ) (R C t : QD) (hR : R.isFinite = true)
    (hC : C.isFinite = true) (ht : t.isFinite = true) :
    allFiniteDisp (rc1 expQ R C t) ∧ rawNonzero (rc1 expQ R C t) ∧
      failAborts (rc1 expQ R C t) := by
  obtain ⟨r, rfl⟩ := (isFinite_iff R).mp hR
  obtain ⟨c, rfl⟩ := (isFinite_iff C).mp hC
  obtain ⟨tq, rfl⟩ := (isFinite_iff t).mp ht
  simp only [rc1]
  split
  next hg => exact errOut_goodR _
  next hg =>
    split
    next hg2 => exact errOut_goodR _
    next hg2 =>
      rw [Bool.or_eq_true, not_or] at hg
      obtain ⟨hg1a, hg1b⟩ := hg
      have hr : 0 < r := not_le.mp (fun hle => hg1a ((le_fin r 0).mpr hle))
      have hc : 0 < c := not_le.mp (fun hle => hg1b ((le_fin c 0).mpr hle))
      have hrc : r * c ≠ 0 := ne_of_gt (mul_pos hr hc)
      rw [mul_fin r c, neg_fin, div_fin (-tq) (r * c) hrc]
      refine ⟨?_, ?_, ?_⟩
      · have hch := mul_finite (QD.fin 100) _ rfl
          (sub_finite (QD.fin 1) _ rfl (expE_finite expQ (QD.fin (-tq / (r * c))) rfl))
        have hdis := mul_finite (QD.fin 100) _ rfl
          (expE_finite expQ (QD.fin (-tq / (r * c))) rfl)
        simp only [allFiniteDisp, List.all_cons, List.all_nil, Bool.and_eq_true, Bool.and_true]
        exact ⟨rfl, hch, hdis⟩
      · exact rawNonzero_pair _ _ _ (r * c) (r * c) rfl hrc hrc
      · exact failAborts_raws _ _ _ _ _ rfl

theorem rc2_good (logQ : ℚ → ℚ) (R C pct : QD) (hR : R.isFinite = true)
    (hC : C.isFinite = true) (hp : pct.isFinite = true) :
    allFiniteDisp (rc2 logQ R C pct) ∧ rawNonzero (rc2 logQ R C pct) ∧
      failAborts (rc2 logQ R C pct) := by
  obtain ⟨r, rfl⟩ := (isFinite_iff R).mp hR
  obtain ⟨c, rfl⟩ := (isFinite_iff C).mp hC
  obtain ⟨p, rfl⟩ := (isFinite_iff pct).mp hp
  simp only [rc2]
  split
  next hg => exact errOut_goodR _
  next hg =>
    split
    next hg2 => exact errOut_goodR _
    next hg2 =>
      rw [Bool.or_eq_true, not_or] at hg2
      obtain ⟨hg2a, hg2b⟩ := hg2
      have hp100 : p < 100 := not_le.mp (fun hle => hg2b ((le_fin 100 p).mpr hle))
      have hla0 : 0 < 1 - p / 100 := by
        have : p / 100 < 1 := (div_lt_one (by norm_num)).mpr hp100
        linarith
      rw [mul_fin r c, div_fin p 100 (by norm_num), sub_fin 1 (p / 100),
        logE_fin_pos logQ _ hla0, neg_fin, mul_fin]
      refine ⟨?_, rawNonzero_nil _ rfl, failAborts_nil _ rfl⟩
      simp [allFiniteDisp, QD.isFinite]

theorem rc3_good (expQ : ℚ → ℚ) (tau t : QD) (htau : tau.isFinite = true)
    (ht : t.isFinite = true) :
    allFiniteDisp (rc3 expQ tau t) ∧ rawNonzero (rc3 expQ tau t) ∧
      failAborts (rc3 expQ tau t) := by
  obtain ⟨u, rfl⟩ := (isFinite_iff tau).mp htau
  obtain ⟨tq, rfl⟩ := (isFinite_iff t).mp ht
  simp only [rc3]
  split
  next hg => exact errOut_goodR _
  next hg =>
    split
    next hg2 => exact errOut_goodR _
    next hg2 =>
      have hu : 0 < u := not_le.mp (fun hle => hg ((le_fin u 0).mpr hle))
      have hune : u ≠ 0 := ne_of_gt hu
      rw [neg_fin, div_fin (-tq) u hune]
      refine ⟨?_, ?_, ?_⟩
      · have hch := mul_finite (QD.fin 100) _ rfl
          (sub_finite (QD.fin 1) _ rfl (expE_finite expQ (QD.fin (-tq / u)) rfl))
        have hdis := mul_finite (QD.fin 100) _ rfl
          (expE_finite expQ (QD.fin (-tq / u)) rfl)
        simp only [allFiniteDisp, List.all_cons, List.all_nil, Bool.and_eq_true, Bool.and_true]
        exact ⟨hch, hdis⟩
      · exact rawNonzero_pair _ _ _ u u rfl hune hune
      · exact failAborts_raws _ _ _ _ _ rfl

theorem rc4_good (logQ : ℚ → ℚ) (hlog : ∀ x : ℚ, 0 < x → x < 1 → logQ x < 0)
    (R pct t : QD) (hR : R.isFinite = true) (hp : pct.isFinite = true)
    (ht : t.isFinite = true) :
    allFiniteDisp (rc4 logQ R pct t) ∧ rawNonzero (rc4 logQ R pct t) ∧
      failAborts (rc4 logQ R pct t) := by
  obtain ⟨r, rfl⟩ := (isFinite_iff R).mp hR
  obtain ⟨p, rfl⟩ := (isFinite_iff pct).mp hp
  obtain ⟨tq, rfl⟩ := (isFinite_iff t).mp ht
  simp only [rc4]
  split
  next hg => exact errOut_goodR _
  next hg =>
    split
    next hg2 => exact errOut_goodR _
    next hg2 =>
      split
      next hg3 => exact errOut_goodR _
      next hg3 =>
        rw [Bool.or_eq_true, not_or] at hg3
        obtain ⟨hg3a, hg3b⟩ := hg3
        have hp0 : 0 < p := not_le.mp (fun hle => hg3a ((le_fin p 0).mpr hle))
        have hp100 : p < 100 := not_le.mp (fun hle => hg3b ((le_fin 100 p).mpr hle))
        have hla0 : 0 < 1 - p / 100 := by
          have : p / 100 < 1 := (div_lt_one (by norm_num)).mpr hp100
          linarith
        have hla1 : 1 - p / 100 < 1 := by
          have : 0 < p / 100 := by positivity
          linarith
        have hlne : logQ (1 - p / 100) ≠ 0 := ne_of_lt (hlog _ hla0 hla1)
        rw [div_fin p 100 (by norm_num), sub_fin 1 (p / 100)]
        split
        next hg4 => exact errOut_goodR _
        next hg4 =>
          rw [logE_fin_pos logQ _ hla0, neg_fin,
            div_fin (-tq) (logQ (1 - p / 100)) hlne]
          split
          next hs =>
            refine ⟨?_, ?_, ?_⟩
            · have hq := safe_divide_ok_finite (QD.fin (-tq / logQ (1 - p / 100)))
                (QD.fin r) rfl rfl hs
              simp only [allFiniteDisp, List.all_cons, List.all_nil, Bool.and_eq_true,
                Bool.and_true]
              exact ⟨hq, rfl⟩
            · exact rawNonzero_raw_safe _ _ _ _ _ rfl hlne
            · exact failAborts_raw_safe_ok _ _ _ _ _ rfl hs
          next hs =>
            refine ⟨rfl, ?_, failAborts_of_err _ rfl rfl rfl⟩
            exact rawNonzero_raw_safe _ _ _ _ _ rfl hlne

theorem rc5_good (logQ : ℚ → ℚ) (hlog : ∀ x : ℚ, 0 < x → x < 1 → logQ x < 0)
    (C pct t : QD) (hC : C.isFinite = true) (hp : pct.isFinite = true)
    (ht : t.isFinite = true) :
    allFiniteDisp (rc5 logQ C pct t) ∧ rawNonzero (rc5 logQ C pct t) ∧
      failAborts (rc5 logQ C pct t) := by
  obtain ⟨c, rfl⟩ := (isFinite_iff C).mp hC
  obtain ⟨p, rfl⟩ := (isFinite_iff pct).mp hp
  obtain ⟨tq, rfl⟩ := (isFinite_iff t).mp ht
  simp only [rc5]
  split
  next hg => exact errOut_goodR _
  next hg =>
    split
    next hg2 => exact errOut_goodR _
    next hg2 =>
      split
      next hg3 => exact errOut_goodR _
      next hg3 =>
        rw [Bool.or_eq_true, not_or] at hg3
        obtain ⟨hg3a, hg3b⟩ := hg3
        have hp0 : 0 < p := not_le.mp (fun hle => hg3a ((le_fin p 0).mpr hle))
        have hp100 : p < 100 := not_le.mp (fun hle => hg3b ((le_fin 100 p).mpr hle))
        have hla0 : 0 < 1 - p / 100 := by
          have : p / 100 < 1 := (div_lt_one (by norm_num)).mpr hp100
          linarith
        have hla1 : 1 - p / 100 < 1 := by
          have : 0 < p / 100 := by positivity
          linarith
        have hlne : logQ (1 - p / 100) ≠ 0 := ne_of_lt (hlog _ hla0 hla1)
        rw [div_fin p 100 (by norm_num), sub_fin 1 (p / 100)]
        split
        next hg4 => exact errOut_goodR _
        next hg4 =>
          rw [logE_fin_pos logQ _ hla0, neg_fin,
            div_fin (-tq) (logQ (1 - p / 100)) hlne]
          split
          next hs =>
            refine ⟨?_, ?_, ?_⟩
            · have hq := safe_divide_ok_finite (QD.fin (-tq / logQ (1 - p / 100)))
                (QD.fin c) rfl rfl hs
              simp only [allFiniteDisp, List.all_cons, List.all_nil, Bool.and_eq_true,
                Bool.and_true]
              exact ⟨hq, rfl⟩
            · exact rawNonzero_raw_safe _ _ _ _ _ rfl hlne
            · exact failAborts_raw_safe_ok _ _ _ _ _ rfl hs
          next hs =>
            refine ⟨rfl, ?_, failAborts_of_err _ rfl rfl rfl⟩
            exact rawNonzero_raw_safe _ _ _ _ _ rfl hlne

theorem menu_item_5_good (lines : List String) (hfin : finiteLines lines = true) :
    allFiniteDisp (menu_item_5 lines).1 ∧ allSafe (menu_item_5 lines).1 ∧
      failAborts (menu_item_5 lines).1 := by
  rw [menu_item_5]
  cases h0 : (read_int lines).1 with
  | none => exact silentOut_goodS
  | some p =>
    obtain ⟨mode, ls0⟩ := p
    have hf0 := read_int_finite lines hfin mode ls0 h0
    dsimp only
    split
    · cases h1 : read2 ls0 with
      | none => exact silentOut_goodS
      | some q =>
        obtain ⟨V, I, ls2⟩ := q
        obtain ⟨hV, hI, -⟩ := read2_finite ls0 hf0 V I ls2 h1
        exact pw1_good V I hV hI
    · split
      · cases h1 : read2 ls0 with
        | none => exact silentOut_goodS
        | some q =>
          obtain ⟨P, I, ls2⟩ := q
          obtain ⟨hP, hI, -⟩ := read2_finite ls0 hf0 P I ls2 h1
          exact pw2_good P I hP hI
      · split
        · cases h1 : read2 ls0 with
          | none => exact silentOut_goodS
          | some q =>
            obtain ⟨P, V, ls2⟩ := q
            obtain ⟨hP, hV, -⟩ := read2_finite ls0 hf0 P V ls2 h1
            exact pw3_good P V hP hV
        · exact errOut_goodS _

theorem menu_item_1_good (lines : List String) (hfin : finiteLines lines = true) :
    allFiniteDisp (menu_item_1 lines).1 ∧ allSafe (menu_item_1 lines).1 ∧
      failAborts (menu_item_1 lines).1 := by
  rw [menu_item_1]
  cases h0 : (read_int lines).1 with
  | none => exact silentOut_goodS
  | some p =>
    obtain ⟨mode, ls0⟩ := p
    have hf0 := read_int_finite lines hfin mode ls0 h0
    dsimp only
    split
    · cases h1 : read3 ls0 with
      | none => exact silentOut_goodS
      | some q =>
        obtain ⟨a, b, c, ls3⟩ := q
        obtain ⟨ha, hb, hc, -⟩ := read3_finite ls0 hf0 a b c ls3 h1
        exact vd1_good a b c ha hb hc
    · split
      · cases h1 : read3 ls0 with
        | none => exact silentOut_goodS
        | some q =>
          obtain ⟨a, b, c, ls3⟩ := q
          obtain ⟨ha, hb, hc, -⟩ := read3_finite ls0 hf0 a b c ls3 h1
          exact vd2_good a b c ha hb hc
      · split
        · cases h1 : read3 ls0 with
          | none => exact silentOut_goodS
          | some q =>
            obtain ⟨a, b, c, ls3⟩ := q
            obtain ⟨ha, hb, hc, -⟩ := read3_finite ls0 hf0 a b c ls3 h1
            exact vd3_good a b c ha hb hc
        · split
          · cases h1 : read3 ls0 with
            | none => exact silentOut_goodS
            | some q =>
              obtain ⟨a, b, c, ls3⟩ := q
              obtain ⟨ha, hb, hc, -⟩ := read3_finite ls0 hf0 a b c ls3 h1
              exact vd4_good a b c ha hb hc
          · exact errOut_goodS _

theorem menu_item_2_good (lines : List String) (hfin : finiteLines lines = true) :
    allFiniteDisp (menu_item_2 lines).1 ∧ allSafe (menu_item_2 lines).1 ∧
      failAborts (menu_item_2 lines).1 := by
  rw [menu_item_2]
  cases h0 : (read_int lines).1 with
  | none => exact silentOut_goodS
  | some p =>
    obtain ⟨group, ls0⟩ := p
    have hf0 := read_int_finite lines hfin group ls0 h0
    dsimp only
    split
    · cases h1 : (read_int ls0).1 with
      | none => exact silentOut_goodS
      | some q =>
        obtain ⟨mode, ls1⟩ := q
        have hf1 := read_int_finite ls0 hf0 mode ls1 h1
        dsimp only
        split
        · cases h2 : (read_int ls1).1 with
          | none => exact silentOut_goodS
          | some q2 =>
            obtain ⟨n, ls2⟩ := q2
            have hf2 := read_int_finite ls1 hf1 n ls2 h2
            dsimp only
            split
            · exact errOut_goodS _
            · cases h3 : readNDoubles n.toNat ls2 with
              | none => exact silentOut_goodS
              | some q3 =>
                obtain ⟨rs, ls3⟩ := q3
                obtain ⟨hrs, -⟩ := readNDoubles_finite n.toNat ls2 hf2 rs ls3 h3
                exact ser1_good n rs hrs
        · split
          · cases h2 : (read_int ls1).1 with
            | none => exact silentOut_goodS
            | some q2 =>
              obtain ⟨n, ls2⟩ := q2
              have hf2 := read_int_finite ls1 hf1 n ls2 h2
              dsimp only
              split
              · exact errOut_goodS _
              · cases h3 : (read_double ls2).1 with
                | none => exact silentOut_goodS
                | some q3 =>
                  obtain ⟨Rt, ls3⟩ := q3
                  obtain ⟨hRt, hf3⟩ := read_double_finite ls2 hf2 Rt ls3 h3
                  dsimp only
                  cases h4 : readNDoubles (n.toNat - 1) ls3 with
                  | none => exact silentOut_goodS
                  | some q4 =>
                    obtain ⟨rs, ls4⟩ := q4
                    obtain ⟨hrs, -⟩ := readNDoubles_finite (n.toNat - 1) ls3 hf3 rs ls4 h4
                    exact ser2_good n Rt rs hRt hrs
          · exact errOut_goodS _
    · split
      · cases h1 : (read_int ls0).1 with
        | none => exact silentOut_goodS
        | some q =>
          obtain ⟨mode, ls1⟩ := q
          have hf1 := read_int_finite ls0 hf0 mode ls1 h1
          dsimp only
          split
          · cases h2 : read2 ls1 with
            | none => exact silentOut_goodS
            | some q2 =>
              obtain ⟨a, b, ls2⟩ := q2
              obtain ⟨ha, hb, -⟩ := read2_finite ls1 hf1 a b ls2 h2
              exact par2Req_good a b ha hb
          · split
            · cases h2 : read2 ls1 with
              | none => exact silentOut_goodS
              | some q2 =>
                obtain ⟨a, b, ls2⟩ := q2
                obtain ⟨ha, hb, -⟩ := read2_finite ls1 hf1 a b ls2 h2
                exact par2SolveR1_good a b ha hb
            · split
              · cases h2 : read2 ls1 with
                | none => exact silentOut_goodS
                | some q2 =>
                  obtain ⟨a, b, ls2⟩ := q2
                  obtain ⟨ha, hb, -⟩ := read2_finite ls1 hf1 a b ls2 h2
                  exact par2SolveR2_good a b ha hb
              · exact errOut_goodS _
      · exact errOut_goodS _

theorem menu_item_3_good (sqrtQ : ℚ → ℚ) (lines : List String)
    (hfin : finiteLines lines = true) :
    allFiniteDisp (menu_item_3 sqrtQ lines).1 ∧ allSafe (menu_item_3 sqrtQ lines).1 ∧
      failAborts (menu_item_3 sqrtQ lines).1 := by
  rw [menu_item_3]
  cases h0 : (read_int lines).1 with
  | none => exact silentOut_goodS
  | some p =>
    obtain ⟨group, ls0⟩ := p
    have hf0 := read_int_finite lines hfin group ls0 h0
    dsimp only
    split
    · cases h1 : (read_int ls0).1 with
      | none => exact silentOut_goodS
      | some q =>
        obtain ⟨mode, ls1⟩ := q
        have hf1 := read_int_finite ls0 hf0 mode ls1 h1
        dsimp only
        split
        · cases h2 : read2 ls1 with
          | none => exact silentOut_goodS
          | some q2 =>
            obtain ⟨a, b, ls2⟩ := q2
            obtain ⟨ha, hb, -⟩ := read2_finite ls1 hf1 a b ls2 h2
            exact xl1_good a b ha hb
        · split
          · cases h2 : read2 ls1 with
            | none => exact silentOut_goodS
            | some q2 =>
              obtain ⟨a, b, ls2⟩ := q2
              obtain ⟨ha, hb, -⟩ := read2_finite ls1 hf1 a b ls2 h2
              exact xl2_good a b ha hb
          · split
            · cases h2 : read2 ls1 with
              | none => exact silentOut_goodS
              | some q2 =>
                obtain ⟨a, b, ls2⟩ := q2
                obtain ⟨ha, hb, -⟩ := read2_finite ls1 hf1 a b ls2 h2
                exact xl3_good a b ha hb
            · exact errOut_goodS _
    · split
      · cases h1 : (read_int ls0).1 with
        | none => exact silentOut_goodS
        | some q =>
          obtain ⟨mode, ls1⟩ := q
          have hf1 := read_int_finite ls0 hf0 mode ls1 h1
          dsimp only
          split
          · cases h2 : read2 ls1 with
            | none => exact silentOut_goodS
            | some q2 =>
              obtain ⟨a, b, ls2⟩ := q2
              obtain ⟨ha, hb, -⟩ := read2_finite ls1 hf1 a b ls2 h2
              exact xc1_good a b ha hb
          · split
            · cases h2 : read2 ls1 with
              | none => exact silentOut_goodS
              | some q2 =>
                obtain ⟨a, b, ls2⟩ := q2
                obtain ⟨ha, hb, -⟩ := read2_finite ls1 hf1 a b ls2 h2
                exact xc2_good a b ha hb
            · split
              · cases h2 : read2 ls1 with
                | none => exact silentOut_goodS
                | some q2 =>
                  obtain ⟨a, b, ls2⟩ := q2
                  obtain ⟨ha, hb, -⟩ := read2_finite ls1 hf1 a b ls2 h2
                  exact xc3_good a b ha hb
              · exact errOut_goodS _
      · split
        · cases h1 : (read_int ls0).1 with
          | none => exact silentOut_goodS
          | some q =>
            obtain ⟨mode, ls1⟩ := q
            have hf1 := read_int_finite ls0 hf0 mode ls1 h1
            dsimp only
            split
            · cases h2 : read2 ls1 with
              | none => exact silentOut_goodS
              | some q2 =>
                obtain ⟨a, b, ls2⟩ := q2
                obtain ⟨ha, hb, -⟩ := read2_finite ls1 hf1 a b ls2 h2
                exact rz1_good sqrtQ a b ha hb
            · split
              · cases h2 : read2 ls1 with
                | none => exact silentOut_goodS
                | some q2 =>
                  obtain ⟨a, b, ls2⟩ := q2
                  obtain ⟨ha, hb, -⟩ := read2_finite ls1 hf1 a b ls2 h2
                  exact rz2_good a b ha hb
              · split
                · cases h2 : read2 ls1 with
                  | none => exact silentOut_goodS
                  | some q2 =>
                    obtain ⟨a, b, ls2⟩ := q2
                    obtain ⟨ha, hb, -⟩ := read2_finite ls1 hf1 a b ls2 h2
                    exact rz3_good a b ha hb
                · exact errOut_goodS _
        · exact errOut_goodS _

theorem menu_item_4_good (expQ logQ : ℚ → ℚ)
    (hlog : ∀ x : ℚ, 0 < x → x < 1 → logQ x < 0) (lines : List String)
    (hfin : finiteLines lines = true) :
    allFiniteDisp (menu_item_4 expQ logQ lines).1 ∧
      rawNonzero (menu_item_4 expQ logQ lines).1 ∧
      failAborts (menu_item_4 expQ logQ lines).1 := by
  rw [menu_item_4]
  cases h0 : (read_int lines).1 with
  | none => exact silentOut_goodR
  | some p =>
    obtain ⟨mode, ls0⟩ := p
    have hf0 := read_int_finite lines hfin mode ls0 h0
    dsimp only
    split
    · cases h1 : read3 ls0 with
      | none => exact silentOut_goodR
      | some q =>
        obtain ⟨a, b, c, ls3⟩ := q
        obtain ⟨ha, hb, hc, -⟩ := read3_finite ls0 hf0 a b c ls3 h1
        exact rc1_good expQ a b c ha hb hc
    · split
      · cases h1 : read3 ls0 with
        | none => exact silentOut_goodR
        | some q =>
          obtain ⟨a, b, c, ls3⟩ := q
          obtain ⟨ha, hb, hc, -⟩ := read3_finite ls0 hf0 a b c ls3 h1
          exact rc2_good logQ a b c ha hb hc
      · split
        · cases h1 : read2 ls0 with
          | none => exact silentOut_goodR
          | some q =>
            obtain ⟨a, b, ls2⟩ := q
            obtain ⟨ha, hb, -⟩ := read2_finite ls0 hf0 a b ls2 h1
            exact rc3_good expQ a b ha hb
        · split
          · cases h1 : read3 ls0 with
            | none => exact silentOut_goodR
            | some q =>
              obtain ⟨a, b, c, ls3⟩ := q
              obtain ⟨ha, hb, hc, -⟩ := read3_finite ls0 hf0 a b c ls3 h1
              exact rc4_good logQ hlog a b c ha hb hc
          · split
            · cases h1 : read3 ls0 with
              | none => exact silentOut_goodR
              | some q =>
                obtain ⟨a, b, c, ls3⟩ := q
                obtain ⟨ha, hb, hc, -⟩ := read3_finite ls0 hf0 a b c ls3 h1
                exact rc5_good logQ hlog a b c ha hb hc
            · exact errOut_goodR _

theorem le_not_lt (a : ℚ) (y : QD) (h : QD.le (QD.fin a) y = true) :
    QD.lt y (QD.fin a) = false := by
  cases y with
  | fin b =>
    simp only [QD.le, decide_eq_true_eq] at h
    simp only [QD.lt, decide_eq_false_iff_not]
    exact not_lt.mpr h
  | posInf => rfl
  | negInf => simp [QD.le] at h
  | nan => simp [QD.le] at h

/-- C3: safe_divide returns not-ok and the default quotient 0 whenever the
magnitude of the denominator is below 1e-12, without computing the quotient,
and returns ok together with exactly the quotient num / den whenever the
magnitude of the denominator is at least 1e-12 (in the exact-rational model
of double arithmetic). -/
theorem claim_C3 :
    (∀ num den : QD, QD.lt (QD.abs den) (QD.fin epsDiv) = true →
      safe_divide num den = (false, QD.fin 0)) ∧
    (∀ num den : QD, QD.le (QD.fin epsDiv) (QD.abs den) = true →
      safe_divide num den = (true, QD.div num den)) := by
  constructor
  · intro num den h
    rw [safe_divide, if_pos h]
  · intro num den h
    rw [safe_divide, if_neg]
    rw [le_not_lt epsDiv (QD.abs den) h]
    simp

/-- C3 witness: a denominator of zero is rejected with quotient 0, and a
denominator of two is accepted with the exact quotient. -/
theorem claim_C3_witness :
    safe_divide (QD.fin 3) (QD.fin 0) = (false, QD.fin 0) ∧
      safe_divide (QD.fin 1) (QD.fin 2) = (true, QD.div (QD.fin 1) (QD.fin 2)) :=
  ⟨claim_C3.1 (QD.fin 3) (QD.fin 0) (by decide),
    claim_C3.2 (QD.fin 1) (QD.fin 2) (by decide)⟩

/-- C9: the strings inf and nan pass the strict double parser and parse to
non-finite values, so a value accepted by StrictNumberParser need not be a
finite number. -/
theorem claim_C9 :
    parse_double infLine = some QD.posInf ∧ QD.posInf.isFinite = false ∧
      parse_double nanLine = some QD.nan ∧ QD.nan.isFinite = false := by decide

/-- C4 counterexample: the string 9223372036854775808 consumes a valid
non-empty numeric prefix with nothing after it, yet parse_long fails,
because the parsed magnitude overflows the range of long; so the claimed
if-and-only-if characterization does not hold as stated. -/
theorem claim_C4_counterexample :
    scan_long overLongLine.data = some (9223372036854775808, 19) ∧
      overLongLine.data.drop 19 = [] ∧ parse_long overLongLine = none := by decide

/-- C4 (amended): parse_long succeeds on a string exactly when the string is
non-empty, the strtol scan consumes a non-empty valid numeric prefix whose
value lies within the range of long, and every character after the prefix is
a space or tab; parse_double succeeds exactly when the string is non-empty,
the strtod scan consumes a non-empty valid numeric prefix whose value does
not overflow double, and every character after the prefix is a space or
tab. -/
theorem claim_C4_amended (s : String) :
    ((parse_long s).isSome = true ↔
      s.data ≠ [] ∧ ∃ v k, scan_long s.data = some (v, k) ∧
        longMin ≤ v ∧ v ≤ longMax ∧ ∀ c ∈ s.data.drop k, isSpTab c = true) ∧
    ((parse_double s).isSome = true ↔
      s.data ≠ [] ∧ ∃ v k, scan_double s.data = some (v, k) ∧
        dblOverflow v = false ∧ ∀ c ∈ s.data.drop k, isSpTab c = true) :=
  ⟨parse_long_iff s, parse_double_iff s⟩

/-- C4 witness: the accepted string 12 satisfies the characterization. -/
theorem claim_C4_witness :
    twelveLine.data ≠ [] ∧ ∃ v k, scan_long twelveLine.data = some (v, k) ∧
      longMin ≤ v ∧ v ≤ longMax ∧ ∀ c ∈ twelveLine.data.drop k, isSpTab c = true :=
  (claim_C4_amended twelveLine).1.mp (by decide)

theorem parse_long_range (s : String) (v : ℤ) (h : parse_long s = some v) :
    longMin ≤ v ∧ v ≤ longMax := by
  simp only [parse_long] at h
  by_cases h0 : s.data.length = 0
  · rw [if_pos h0] at h
    exact absurd h (by simp)
  · rw [if_neg h0] at h
    cases hsc : scan_long s.data with
    | none =>
      rw [hsc] at h
      exact absurd h (by simp)
    | some vk =>
      obtain ⟨v1, k⟩ := vk
      rw [hsc] at h
      dsimp only at h
      by_cases hr : v1 < longMin ∨ longMax < v1
      · rw [if_pos hr] at h
        exact absurd h (by simp)
      · rw [if_neg hr] at h
        rw [not_or, not_lt, not_lt] at hr
        by_cases ht : ((s.data.drop k).dropWhile isSpTab).length = 0
        · rw [if_pos ht] at h
          obtain rfl : v1 = v := by injection h
          exact hr
        · rw [if_neg ht] at h
          exact absurd h (by simp)

theorem parse_double_in_range (s : String) (v : QD) (h : parse_double s = some v) :
    dblOverflow v = false := by
  simp only [parse_double] at h
  by_cases h0 : s.data.length = 0
  · rw [if_pos h0] at h
    exact absurd h (by simp)
  · rw [if_neg h0] at h
    cases hsc : scan_double s.data with
    | none =>
      rw [hsc] at h
      exact absurd h (by simp)
    | some vk =>
      obtain ⟨v1, k⟩ := vk
      rw [hsc] at h
      dsimp only at h
      by_cases hr : dblOverflow v1 = true
      · rw [if_pos hr] at h
        exact absurd h (by simp)
      · rw [if_neg hr] at h
        by_cases ht : ((s.data.drop k).dropWhile isSpTab).length = 0
        · rw [if_pos ht] at h
          obtain rfl : v1 = v := by injection h
          simpa using hr
        · rw [if_neg ht] at h
          exact absurd h (by simp)

/-- C5 counterexample: the input 2147483648 lies outside the range of int,
yet read_int accepts it, storing the wrapped-around converted value
-2147483648 instead of rejecting the input. -/
theorem claim_C5_counterexample :
    parse_long overIntLine = some 2147483648 ∧
      (read_int [overIntLine]).1 = some (-2147483648, []) := by decide

/-- C5 (amended): parse_long fails whenever the parsed magnitude overflows
the range of long, and parse_double whenever it overflows the range of
double; read_int, however, accepts every value parse_long accepts and stores
its wraparound conversion to int, so an input outside the range of int is
accepted with a converted value rather than rejected. -/
theorem claim_C5_amended :
    (∀ s v, parse_long s = some v → longMin ≤ v ∧ v ≤ longMax) ∧
    (∀ s v, parse_double s = some v → dblOverflow v = false) ∧
    (∀ l ls w, parse_long l = some w →
      (read_int (l :: ls)).1 = some (toInt32 w, ls)) := by
  refine ⟨parse_long_range, parse_double_in_range, ?_⟩
  intro l ls w hl
  rw [read_int, hl]

/-- C5 witness: the out-of-int-range input is accepted with its wrapped
conversion, and an in-range parse satisfies the long bounds. -/
theorem claim_C5_witness :
    (read_int [overIntLine]).1 = some (toInt32 2147483648, []) ∧
      longMin ≤ (12 : ℤ) ∧ (12 : ℤ) ≤ longMax :=
  ⟨claim_C5_amended.2.2 overIntLine [] 2147483648 (by decide),
    claim_C5_amended.1 twelveLine 12 (by decide)⟩

/-- C8: the prompter returns the parsed value of the first line the strict
parser accepts, printing one re-prompt for each rejected line before it;
when the input is exhausted before any line parses it returns failure after
exactly one re-prompt per rejected line and no further message, and every
calculation module returns silently, displaying and logging nothing, when
its first read meets exhausted input, or when the input runs out in the
middle of the module. -/
theorem claim_C8 (sqrtQ expQ logQ : ℚ → ℚ) :
    (∀ pre l post v, (∀ x ∈ pre, parse_double x = none) → parse_double l = some v →
      read_double (pre ++ l :: post) = (some (v, post), pre.length)) ∧
    (∀ lines, (∀ l ∈ lines, parse_double l = none) →
      read_double lines = (none, lines.length)) ∧
    (∀ pre l post w, (∀ x ∈ pre, parse_long x = none) → parse_long l = some w →
      read_int (pre ++ l :: post) = (some (toInt32 w, post), pre.length)) ∧
    (∀ lines, (∀ l ∈ lines, parse_long l = none) →
      read_int lines = (none, lines.length)) ∧
    (∀ lines, (∀ l ∈ lines, parse_long l = none) →
      menu_item_1 lines = (silentOut, []) ∧ menu_item_2 lines = (silentOut, []) ∧
        menu_item_3 sqrtQ lines = (silentOut, []) ∧
        menu_item_4 expQ logQ lines = (silentOut, []) ∧
        menu_item_5 lines = (silentOut, [])) ∧
    menu_item_4 expQ logQ rcAbortLines = (silentOut, []) := by
  refine ⟨read_double_first, read_double_exhaust, read_int_first, read_int_exhaust, ?_, rfl⟩
  intro lines h
  have h1 : (read_int lines).1 = none := by rw [read_int_exhaust lines h]
  exact ⟨by rw [menu_item_1, h1], by rw [menu_item_2, h1], by rw [menu_item_3, h1],
    by rw [menu_item_4, h1], by rw [menu_item_5, h1]⟩

/-- C8 witness: with one rejected line before an accepted line, the prompter
returns the parsed value of the accepted line after one re-prompt. -/
theorem claim_C8_witness :
    read_double ([abcLine] ++ twelveLine :: []) = (some (QD.fin 12, []), 1) :=
  (claim_C8 idQ idQ idQ).1 [abcLine] twelveLine [] (QD.fin 12) (by decide) (by decide)

/-- C10: at the main menu, end-of-input makes get_choice return -1, which
falls into the invalid-choice branch rather than the quit case, so the loop
never exits on exhausted input (the fuel always runs out); every terminating
run exits with code 0 or 1; menu code 7 exits normally with code 0; and
end-of-input at the back prompt exits with code 1. -/
theorem claim_C10 (sqrtQ expQ logQ : ℚ → ℚ) :
    (getChoice []).1 = -1 ∧
    (∀ n, runMain sqrtQ expQ logQ n [] = none) ∧
    (∀ n lines c, runMain sqrtQ expQ logQ n lines = some c → c = 0 ∨ c = 1) ∧
    (∀ n lines, (getChoice lines).1 = 7 →
      runMain sqrtQ expQ logQ (n + 1) lines = some 0) ∧
    runMain sqrtQ expQ logQ 1 sixLines = some 1 := by
  refine ⟨rfl, ?_, ?_, ?_, rfl⟩
  · intro n
    induction n with
    | zero => rfl
    | succ m ih =>
      rw [runMain]
      simpa [getChoice] using ih
  · intro n
    induction n with
    | zero =>
      intro lines c h
      exact absurd h (by simp [runMain])
    | succ m ih =>
      intro lines c h
      rw [runMain] at h
      split at h
      · exact Or.inl (by injection h with h2; exact h2.symm)
      · split at h
        · cases hw : waitBack (menu_item_1 (getChoice lines).2).2 with
          | none =>
            rw [hw] at h
            exact Or.inr (by injection h with h2; exact h2.symm)
          | some r =>
            rw [hw] at h
            exact ih r c h
        · split at h
          · cases hw : waitBack (menu_item_2 (getChoice lines).2).2 with
            | none =>
              rw [hw] at h
              exact Or.inr (by injection h with h2; exact h2.symm)
            | some r =>
              rw [hw] at h
              exact ih r c h
          · split at h
            · cases hw : waitBack (menu_item_3 sqrtQ (getChoice lines).2).2 with
              | none =>
                rw [hw] at h
                exact Or.inr (by injection h with h2; exact h2.symm)
              | some r =>
                rw [hw] at h
                exact ih r c h
            · split at h
              · cases hw : waitBack (menu_item_4 expQ logQ (getChoice lines).2).2 with
                | none =>
                  rw [hw] at h
                  exact Or.inr (by injection h with h2; exact h2.symm)
                | some r =>
                  rw [hw] at h
                  exact ih r c h
              · split at h
                · cases hw : waitBack (menu_item_5 (getChoice lines).2).2 with
                  | none =>
                    rw [hw] at h
                    exact Or.inr (by injection h with h2; exact h2.symm)
                  | some r =>
                    rw [hw] at h
                    exact ih r c h
                · split at h
                  · cases hw : waitBack (getChoice lines).2 with
                    | none =>
                      rw [hw] at h
                      exact Or.inr (by injection h with h2; exact h2.symm)
                    | some r =>
                      rw [hw] at h
                      exact ih r c h
                  · exact ih _ c h
  · intro n lines h7
    rw [runMain]
    rw [h7]
    norm_num

/-- C10 witness: a run whose first menu choice is 7 exits normally. -/
theorem claim_C10_witness :
    runMain idQ idQ idQ 1 sevenLines = some 0 :=
  (claim_C10 idQ idQ idQ).2.2.2.1 0 sevenLines (by decide)

theorem errOut_noComp (m : String) : noComputation (errOut m) :=
  ⟨rfl, rfl, rfl, rfl, rfl⟩

/-- C6: in the parallel two-resistor computation, whenever R1 or R2 equals
exactly 0.0 the result 0 is displayed directly with the distinct
short-circuit log record and safe_divide is not invoked (no division event);
whenever both are nonzero, including magnitudes below 1e-12, the general
formula is attempted through safe_divide, which logs the general record on
success and may reject a near-zero sum R1 + R2 with an error; the
short-circuit record is distinct from the general one. -/
theorem claim_C6 (R1 R2 : QD) :
    ((R1 = QD.fin 0 ∨ R2 = QD.fin 0) →
      par2Req R1 R2 = ⟨[QD.fin 0], none, [⟨fmtParShort, [R1, R2]⟩], [], []⟩) ∧
    (R1 ≠ QD.fin 0 → R2 ≠ QD.fin 0 →
      (par2Req R1 R2).divs = [DivEvent.safe (QD.mul R1 R2) (QD.add R1 R2)] ∧
      ((safe_divide (QD.mul R1 R2) (QD.add R1 R2)).1 = true →
        (par2Req R1 R2).logs =
          [⟨fmtPar1, [R1, R2, (safe_divide (QD.mul R1 R2) (QD.add R1 R2)).2]⟩]) ∧
      ((safe_divide (QD.mul R1 R2) (QD.add R1 R2)).1 = false →
        par2Req R1 R2 =
          ⟨[], some msgSumZero, [],
            [DivEvent.safe (QD.mul R1 R2) (QD.add R1 R2)], []⟩)) ∧
    fmtParShort ≠ fmtPar1 := by
  refine ⟨?_, ?_, by decide⟩
  · intro h
    have hb : (QD.beq R1 (QD.fin 0) || QD.beq R2 (QD.fin 0)) = true := by
      rcases h with h | h
      · rw [(beq_fin_zero R1).mpr h]
        simp
      · rw [(beq_fin_zero R2).mpr h]
        simp
    simp only [par2Req]
    rw [if_pos hb]
  · intro h1 h2
    have hb1 : QD.beq R1 (QD.fin 0) = false :=
      (Bool.not_eq_true _).mp (fun hh => h1 ((beq_fin_zero R1).mp hh))
    have hb2 : QD.beq R2 (QD.fin 0) = false :=
      (Bool.not_eq_true _).mp (fun hh => h2 ((beq_fin_zero R2).mp hh))
    simp only [par2Req]
    rw [if_neg (by simp [hb1, hb2])]
    by_cases hs : (safe_divide (QD.mul R1 R2) (QD.add R1 R2)).1 = true
    · rw [if_pos hs]
      exact ⟨rfl, fun _ => rfl, fun hf => absurd hs (by simp [hf])⟩
    · rw [if_neg hs]
      exact ⟨rfl, fun ht => absurd ht hs, fun _ => rfl⟩

/-- C6 witness: R1 = 100 with a short-circuited R2 = 0 yields the direct zero
result with the short-circuit record and no division event, while two
nonzero resistors produce a safe_divide division event. -/
theorem claim_C6_witness :
    par2Req (QD.fin 100) (QD.fin 0) =
      ⟨[QD.fin 0], none, [⟨fmtParShort, [QD.fin 100, QD.fin 0]⟩], [], []⟩ ∧
    (par2Req (QD.fin 1) (QD.fin 1)).divs =
      [DivEvent.safe (QD.mul (QD.fin 1) (QD.fin 1)) (QD.add (QD.fin 1) (QD.fin 1))] :=
  ⟨(claim_C6 (QD.fin 100) (QD.fin 0)).1 (Or.inr rfl),
    ((claim_C6 (QD.fin 1) (QD.fin 1)).2.1 (fin_ne_zero 1 one_ne_zero)
      (fin_ne_zero 1 one_ne_zero)).1⟩

/-- C7: in each inverse RC-transient path taking a target charge percentage
(modes 2, 4 and 5), a percentage at most 0 or at least 100 leads to a
domain-violation message with no computation performed: nothing displayed,
logged, divided or passed to log(); and every finite percentage strictly
inside (0, 100) passes the percentage guard, so the percentage error message
is never produced for it. -/
theorem claim_C7 (logQ : ℚ → ℚ) (R C pct t : QD) :
    ((QD.le pct (QD.fin 0) = true ∨ QD.le (QD.fin 100) pct = true) →
      noComputation (rc2 logQ R C pct) ∧ noComputation (rc4 logQ R pct t) ∧
        noComputation (rc5 logQ C pct t)) ∧
    (∀ p : ℚ, pct = QD.fin p → 0 < p → p < 100 →
      (rc2 logQ R C pct).errMsg ≠ some msgPct ∧
        (rc4 logQ R pct t).errMsg ≠ some msgPct ∧
        (rc5 logQ C pct t).errMsg ≠ some msgPct) := by
  constructor
  · intro hbad
    have hb : (QD.le pct (QD.fin 0) || QD.le (QD.fin 100) pct) = true := by
      rcases hbad with h | h <;> simp [h]
    refine ⟨?_, ?_, ?_⟩
    · simp only [rc2]
      split <;> exact errOut_noComp _
    · simp only [rc4]
      split
      · exact errOut_noComp _
      · split <;> exact errOut_noComp _
    · simp only [rc5]
      split
      · exact errOut_noComp _
      · split <;> exact errOut_noComp _
  · intro p hp hp0 hp100
    subst hp
    have hle0 : QD.le (QD.fin p) (QD.fin 0) = false := by
      simp only [QD.le]
      exact decide_eq_false (not_le.mpr hp0)
    have hle100 : QD.le (QD.fin 100) (QD.fin p) = false := by
      simp only [QD.le]
      exact decide_eq_false (not_le.mpr hp100)
    have hguard :
        ¬((QD.le (QD.fin p) (QD.fin 0) || QD.le (QD.fin 100) (QD.fin p)) = true) := by
      simp [hle0, hle100]
    refine ⟨?_, ?_, ?_⟩
    · simp only [rc2]
      split
      · decide
      · simp
    · simp only [rc4]
      split
      · decide
      · split
        · decide
        · split
          · decide
          · split
            · simp
            · intro hx
              injection hx with hx2
              exact absurd hx2 (by decide)
    · simp only [rc5]
      split
      · decide
      · split
        · decide
        · split
          · decide
          · split
            · simp
            · intro hx
              injection hx with hx2
              exact absurd hx2 (by decide)

/-- C7 witness: the out-of-range percentage 150 triggers the domain guard of
all three inverse paths with no computation, and the in-range percentage 50
never produces the percentage error message. -/
theorem claim_C7_witness :
    (noComputation (rc2 negOneQ (QD.fin 1) (QD.fin 1) (QD.fin 150)) ∧
      noComputation (rc4 negOneQ (QD.fin 1) (QD.fin 150) (QD.fin 1)) ∧
      noComputation (rc5 negOneQ (QD.fin 1) (QD.fin 150) (QD.fin 1))) ∧
    (rc2 negOneQ (QD.fin 1) (QD.fin 1) (QD.fin 50)).errMsg ≠ some msgPct :=
  ⟨(claim_C7 negOneQ (QD.fin 1) (QD.fin 1) (QD.fin 150) (QD.fin 1)).1
      (Or.inr (by decide)),
    ((claim_C7 negOneQ (QD.fin 1) (QD.fin 1) (QD.fin 50) (QD.fin 1)).2 50 rfl
      (by norm_num) (by norm_num)).1⟩

/-- C1 counterexample: with the input lines 1, inf, 2 the Power module
accepts the non-finite value inf from parse_double and displays the infinite
result P = inf * 2, so an execution path of a formula module can print a
non-finite value. -/
theorem claim_C1_counterexample :
    (menu_item_5 infLines).1.displayed = [QD.posInf] ∧
      QD.posInf.isFinite = false := by decide

/-- C1 (amended): provided every input value accepted by the strict double
parser is finite, no execution path of menu_item_1 through menu_item_5
displays a non-finite value, in the exact-rational model of double
arithmetic in which tau = R * C of positive factors is exactly positive and
log (1 - pct / 100) on (0, 1) is exactly negative. -/
theorem claim_C1_amended (sqrtQ expQ logQ : ℚ → ℚ)
    (hlog : ∀ x : ℚ, 0 < x → x < 1 → logQ x < 0)
    (lines : List String) (hfin : finiteLines lines = true) :
    allFiniteDisp (menu_item_1 lines).1 ∧ allFiniteDisp (menu_item_2 lines).1 ∧
      allFiniteDisp (menu_item_3 sqrtQ lines).1 ∧
      allFiniteDisp (menu_item_4 expQ logQ lines).1 ∧
      allFiniteDisp (menu_item_5 lines).1 :=
  ⟨(menu_item_1_good lines hfin).1, (menu_item_2_good lines hfin).1,
    (menu_item_3_good sqrtQ lines hfin).1,
    (menu_item_4_good expQ logQ hlog lines hfin).1,
    (menu_item_5_good lines hfin).1⟩

/-- C1 witness: a concrete finite RC-transient run displays only finite
values in every module. -/
theorem claim_C1_witness :
    allFiniteDisp (menu_item_1 rcModeOneLines).1 ∧
      allFiniteDisp (menu_item_2 rcModeOneLines).1 ∧
      allFiniteDisp (menu_item_3 idQ rcModeOneLines).1 ∧
      allFiniteDisp (menu_item_4 idQ negOneQ rcModeOneLines).1 ∧
      allFiniteDisp (menu_item_5 rcModeOneLines).1 :=
  claim_C1_amended idQ idQ negOneQ (fun _ _ _ => by norm_num [negOneQ])
    rcModeOneLines (by decide)

/-- C2 counterexample: in RC-transient mode 1 with R = C = t = 1 the
division t / tau is performed directly, producing two raw division events
that are not safe_divide calls, so not every user-denominator division is
routed through safe_divide. -/
theorem claim_C2_counterexample :
    (menu_item_4 idQ idQ rcModeOneLines).1.divs =
      [DivEvent.raw (QD.fin (-1)) (QD.fin 1),
        DivEvent.raw (QD.fin (-1)) (QD.fin 1)] ∧
      DivEvent.isSafe (DivEvent.raw (QD.fin (-1)) (QD.fin 1)) = false := by decide

/-- C2 (amended): provided every parsed input value is finite, every
division event of menu_item_1, menu_item_2, menu_item_3 and menu_item_5 is a
safe_divide call; in menu_item_4 the divisions t / tau (modes 1 and 3) and
-t / ln (1 - pct / 100) (modes 4 and 5) are instead computed directly, but
only after the domain guards ensure a nonzero finite denominator (in the
exact-rational model); and in every module a failing safe_divide call leads
to an error message with nothing displayed and nothing logged, aborting only
that calculation. -/
theorem claim_C2_amended (sqrtQ expQ logQ : ℚ → ℚ)
    (hlog : ∀ x : ℚ, 0 < x → x < 1 → logQ x < 0)
    (lines : List String) (hfin : finiteLines lines = true) :
    (allSafe (menu_item_1 lines).1 ∧ allSafe (menu_item_2 lines).1 ∧
      allSafe (menu_item_3 sqrtQ lines).1 ∧ allSafe (menu_item_5 lines).1) ∧
    rawNonzero (menu_item_4 expQ logQ lines).1 ∧
    (failAborts (menu_item_1 lines).1 ∧ failAborts (menu_item_2 lines).1 ∧
      failAborts (menu_item_3 sqrtQ lines).1 ∧
      failAborts (menu_item_4 expQ logQ lines).1 ∧
      failAborts (menu_item_5 lines).1) :=
  ⟨⟨(menu_item_1_good lines hfin).2.1, (menu_item_2_good lines hfin).2.1,
      (menu_item_3_good sqrtQ lines hfin).2.1, (menu_item_5_good lines hfin).2.1⟩,
    (menu_item_4_good expQ logQ hlog lines hfin).2.1,
    ⟨(menu_item_1_good lines hfin).2.2, (menu_item_2_good lines hfin).2.2,
      (menu_item_3_good sqrtQ lines hfin).2.2,
      (menu_item_4_good expQ logQ hlog lines hfin).2.2,
      (menu_item_5_good lines hfin).2.2⟩⟩

/-- C2 witness: the amended division discipline holds on a concrete finite
input sequence. -/
theorem claim_C2_witness :
    allSafe (menu_item_1 sevenLines).1 ∧
      rawNonzero (menu_item_4 idQ negOneQ sevenLines).1 ∧
      failAborts (menu_item_5 sevenLines).1 :=
  ⟨(claim_C2_amended idQ idQ negOneQ (fun _ _ _ => by norm_num [negOneQ])
      sevenLines (by decide)).1.1,
    (claim_C2_amended idQ idQ negOneQ (fun _ _ _ => by norm_num [negOneQ])
      sevenLines (by decide)).2.1,
    (claim_C2_amended idQ idQ negOneQ (fun _ _ _ => by norm_num [negOneQ])
      sevenLines (by decide)).2.2.2.2.2.2⟩
